import Mathlib

/-!
Shallow embedding of the `auto-default` procedural-macro rewriter
(`src/lib.rs` of the `auto-default` crate) and proofs about it.

Tokens (`proc_macro::TokenTree`) are modelled as a Lean inductive with
spans as opaque natural-number tags.  The rewriter's `Peekable` iterators
become explicit list-passing; `unreachable!()`/`.expect(..)` panics become
`Except.error`.
-/

set_option maxHeartbeats 1000000

namespace AutoDefault

/-- Mirrors `proc_macro::Delimiter` (`Parenthesis`, `Brace`, `Bracket`, `None`). -/
inductive Delim where
  | parenthesis
  | brace
  | bracket
  | invisible
deriving DecidableEq

/-- Mirrors `proc_macro::Spacing` (`Alone`, `Joint`). -/
inductive Spacing where
  | alone
  | joint
deriving DecidableEq

/-- Mirrors `proc_macro::TokenTree`: identifier, punctuation, literal, or a
delimited group with a nested stream.  Each token carries an opaque span tag. -/
inductive TokenTree where
  | ident (name : String) (span : Nat)
  | punct (c : Char) (spc : Spacing) (span : Nat)
  | lit (text : String) (span : Nat)
  | group (delim : Delim) (stream : List TokenTree) (span : Nat)

mutual

/-- Decidable equality for token trees (hand-rolled: the inductive is nested). -/
def TokenTree.decEq : (a b : TokenTree) → Decidable (a = b)
  | .ident n1 s1, .ident n2 s2 =>
    if h : n1 = n2 ∧ s1 = s2 then .isTrue (by rw [h.1, h.2])
    else .isFalse (fun he => by injection he with h1 h2; exact h ⟨h1, h2⟩)
  | .punct c1 p1 s1, .punct c2 p2 s2 =>
    if h : c1 = c2 ∧ p1 = p2 ∧ s1 = s2 then .isTrue (by rw [h.1, h.2.1, h.2.2])
    else .isFalse (fun he => by injection he with h1 h2 h3; exact h ⟨h1, h2, h3⟩)
  | .lit t1 s1, .lit t2 s2 =>
    if h : t1 = t2 ∧ s1 = s2 then .isTrue (by rw [h.1, h.2])
    else .isFalse (fun he => by injection he with h1 h2; exact h ⟨h1, h2⟩)
  | .group d1 l1 s1, .group d2 l2 s2 =>
    match TokenTree.decEqList l1 l2 with
    | .isTrue hl =>
      if h : d1 = d2 ∧ s1 = s2 then .isTrue (by rw [h.1, hl, h.2])
      else .isFalse (fun he => by injection he with h1 h2 h3; exact h ⟨h1, h3⟩)
    | .isFalse hl => .isFalse (fun he => by injection he with h1 h2 h3; exact hl h2)
  | .ident _ _, .punct _ _ _ => .isFalse (fun h => nomatch h)
  | .ident _ _, .lit _ _ => .isFalse (fun h => nomatch h)
  | .ident _ _, .group _ _ _ => .isFalse (fun h => nomatch h)
  | .punct _ _ _, .ident _ _ => .isFalse (fun h => nomatch h)
  | .punct _ _ _, .lit _ _ => .isFalse (fun h => nomatch h)
  | .punct _ _ _, .group _ _ _ => .isFalse (fun h => nomatch h)
  | .lit _ _, .ident _ _ => .isFalse (fun h => nomatch h)
  | .lit _ _, .punct _ _ _ => .isFalse (fun h => nomatch h)
  | .lit _ _, .group _ _ _ => .isFalse (fun h => nomatch h)
  | .group _ _ _, .ident _ _ => .isFalse (fun h => nomatch h)
  | .group _ _ _, .punct _ _ _ => .isFalse (fun h => nomatch h)
  | .group _ _ _, .lit _ _ => .isFalse (fun h => nomatch h)

/-- Decidable equality for lists of token trees. -/
def TokenTree.decEqList : (a b : List TokenTree) → Decidable (a = b)
  | [], [] => .isTrue rfl
  | [], _ :: _ => .isFalse (fun h => nomatch h)
  | _ :: _, [] => .isFalse (fun h => nomatch h)
  | a :: as, b :: bs =>
    match TokenTree.decEq a b, TokenTree.decEqList as bs with
    | .isTrue h1, .isTrue h2 => .isTrue (by rw [h1, h2])
    | .isFalse h1, _ => .isFalse (fun he => by injection he with x y; exact h1 x)
    | _, .isFalse h2 => .isFalse (fun he => by injection he with x y; exact h2 y)

end

instance : DecidableEq TokenTree := TokenTree.decEq

/-- `TokenTree::span()`. -/
def TokenTree.span : TokenTree → Nat
  | .ident _ s => s
  | .punct _ _ s => s
  | .lit _ s => s
  | .group _ _ s => s

/-- `Span::call_site()`, as an opaque tag. -/
def callSite : Nat := 0

/-- Mirrors the `CompileError` struct: a span and a message. -/
structure CompileError where
  span : Nat
  message : String
deriving DecidableEq

/-- `impl IntoIterator for CompileError`: the eight tokens of
`::core::compile_error!{"message"}`, every one carrying the error's span. -/
def CompileError.toTokens (e : CompileError) : List TokenTree :=
  [ .punct ':' .joint e.span,
    .punct ':' .joint e.span,
    .ident "core" e.span,
    .punct ':' .joint e.span,
    .punct ':' .joint e.span,
    .ident "compile_error" e.span,
    .punct '!' .alone e.span,
    .group .brace [.lit e.message e.span] e.span ]

/-- The `default` function: the fourteen tokens of
`= ::core::default::Default::default()`.  The leading `=` keeps the
call-site span (the Rust code never calls `with_span` on it); every other
token carries the field's span. -/
def default (span : Nat) : List TokenTree :=
  [ .punct '=' .alone callSite,
    .punct ':' .joint span,
    .punct ':' .joint span,
    .ident "core" span,
    .punct ':' .joint span,
    .punct ':' .joint span,
    .ident "default" span,
    .punct ':' .joint span,
    .punct ':' .joint span,
    .ident "Default" span,
    .punct ':' .joint span,
    .punct ':' .joint span,
    .ident "default" span,
    .group .parenthesis [] span ]

/-- `stream_ident`: pops the next token (whatever it is) from `source` into
`sink` and returns its span; `none` at end of input. -/
def stream_ident (source sink : List TokenTree) :
    Option Nat × List TokenTree × List TokenTree :=
  match source with
  | [] => (none, [], sink)
  | tt :: rest => (some tt.span, rest, sink ++ [tt])

/-- `stream_vis`: copies an optional `pub` / `pub(...)` visibility qualifier
from `source` into `sink`. -/
def stream_vis (source sink : List TokenTree) :
    List TokenTree × List TokenTree :=
  match source with
  | .ident "pub" s :: rest =>
    match rest with
    | .group .parenthesis g gs :: rest2 =>
      (rest2, sink ++ [.ident "pub" s, .group .parenthesis g gs])
    | _ => (rest, sink ++ [.ident "pub" s])
  | _ => (source, sink)

/-- `is_skip_attribute`: given the token stream *inside* one attribute
(`#[ ... ]`), decides whether it is exactly `auto_default(skip)`.
Returns the span of the `skip` identifier on success, the remaining
(unconsumed) attribute tokens, and the error stream (possibly grown by one
diagnostic).  If the head is not the identifier `auto_default`, nothing is
consumed (the Rust code only `peek`s before bailing out). -/
def is_skip_attribute (source errors : List TokenTree) :
    Option Nat × List TokenTree × List TokenTree :=
  match source with
  | .ident name auto_default_span :: rest =>
    if name = "auto_default" then
      match rest with
      | .group .parenthesis inside gspan :: rest2 =>
        match inside with
        | .ident skipName sspan :: insideRest =>
          if skipName = "skip" then
            match insideRest with
            | [] => (some sspan, rest2, errors)
            | tt :: _ =>
              (none, rest2, errors ++ (CompileError.mk tt.span "unexpected token").toTokens)
          else
            (none, rest2, errors ++ (CompileError.mk sspan "expected `skip`").toTokens)
        | tt :: _ =>
          (none, rest2, errors ++ (CompileError.mk tt.span "expected `skip`").toTokens)
        | [] =>
          (none, rest2,
            errors ++ (CompileError.mk gspan "expected `(skip)`, found `()`").toTokens)
      | tt :: rest2 =>
        (none, rest2, errors ++ (CompileError.mk tt.span "expected `(skip)`").toTokens)
      | [] =>
        (none, [],
          errors ++ (CompileError.mk auto_default_span "expected `(skip)` after this").toTokens)
    else (none, source, errors)
  | _ => (none, source, errors)

/-- The `loop` inside `stream_attrs`: while the next token is a `#` punct, the
following group is an attribute.  A valid `auto_default(skip)` attribute is
recorded in the `is_skip` accumulator (a duplicate adds a diagnostic) and is
*not* forwarded; any other attribute is forwarded as `#` plus the group
rebuilt from its unconsumed tokens.  A `#` not followed by a group is the
`unreachable!()` panic. -/
def stream_attrs_loop (source sink errors : List TokenTree) (is_skip : Option Nat) :
    Except String (Option Nat × List TokenTree × List TokenTree × List TokenTree) :=
  match source with
  | .punct c pspc pspan :: rest =>
    if c = '#' then
      match rest with
      | .group d attrToks aspan :: rest2 =>
        match is_skip_attribute attrToks errors with
        | (some skip_span, _, errors2) =>
          match is_skip with
          | some first =>
            stream_attrs_loop rest2 sink
              (errors2 ++ (CompileError.mk skip_span "duplicate `#[auto_default(skip)]`").toTokens)
              (some first)
          | none => stream_attrs_loop rest2 sink errors2 (some skip_span)
        | (none, attrRest, errors2) =>
          stream_attrs_loop rest2
            (sink ++ [.punct c pspc pspan, .group d attrRest aspan]) errors2 is_skip
      | _ => .error "internal error: entered unreachable code"
    else .ok (is_skip, .punct c pspc pspan :: rest, sink, errors)
  | _ => .ok (is_skip, source, sink, errors)

/-- `stream_attrs`: runs the attribute loop, then (when a skip was found in a
context where skip is not allowed) emits the container placement diagnostic.
Returns whether `#[auto_default(skip)]` was encountered. -/
def stream_attrs (source sink errors : List TokenTree) (is_skip_allowed : Bool) :
    Except String (Bool × List TokenTree × List TokenTree × List TokenTree) :=
  match stream_attrs_loop source sink errors none with
  | .error e => .error e
  | .ok (is_skip, source2, sink2, errors2) =>
    match is_skip with
    | some skip_span =>
      if !is_skip_allowed then
        .ok (true, source2, sink2,
          errors2 ++
            (CompileError.mk skip_span "`#[auto_default(skip)]` is not allowed on container").toTokens)
      else .ok (true, source2, sink2, errors2)
    | none => .ok (false, source2, sink2, errors2)

/-- The inner loop of `stream_enum_variant_discriminant_and_comma`: copies the
discriminant expression up to and including the `,`, or to end of input. -/
def stream_discriminant (source sink : List TokenTree) :
    List TokenTree × List TokenTree :=
  match source with
  | .punct c pspc pspan :: rest =>
    if c = ',' then (rest, sink ++ [.punct c pspc pspan])
    else stream_discriminant rest (sink ++ [.punct c pspc pspan])
  | tt :: rest => stream_discriminant rest (sink ++ [tt])
  | [] => ([], sink)

/-- `stream_enum_variant_discriminant_and_comma`: after a variant's payload,
consumes either a `,`, or a `= discriminant` expression followed by `,` or end
of input, or nothing at end of input.  Any other token is the `unreachable!()`
panic. -/
def stream_enum_variant_discriminant_and_comma (source sink : List TokenTree) :
    Except String (List TokenTree × List TokenTree) :=
  match source with
  | [] => .ok ([], sink)
  | .punct c pspc pspan :: rest =>
    if c = ',' then .ok (rest, sink ++ [.punct c pspc pspan])
    else if c = '=' then .ok (stream_discriminant rest (sink ++ [.punct c pspc pspan]))
    else .error "internal error: entered unreachable code"
  | _ => .error "internal error: entered unreachable code"

/-- The innermost loop of `add_default_field_values`: a `=` was peeked, so the
field has an explicit initializer; every token through the terminating `,` is
copied verbatim.  The boolean is `true` when the loop ran to end of input
(`break 'parse_field`: this was the last field). -/
def stream_existing_initializer (source sink : List TokenTree) :
    List TokenTree × List TokenTree × Bool :=
  match source with
  | [] => ([], sink, true)
  | .punct c pspc pspan :: rest =>
    if c = ',' then (rest, sink ++ [.punct c pspc pspan], false)
    else stream_existing_initializer rest (sink ++ [.punct c pspc pspan])
  | tt :: rest => stream_existing_initializer rest (sink ++ [tt])

/-- The per-field inner loop of `add_default_field_values`, entered after the
field's name and `:` were copied.  Copies the type tokens; on a peeked `=`
defers to `stream_existing_initializer`; on `,` or end of input injects the
canonical default initializer immediately before the separator / end unless
`is_skip`.  The boolean is `true` when this was the last field. -/
def stream_field_tail (field_ident_span : Nat) (is_skip : Bool)
    (source sink : List TokenTree) : List TokenTree × List TokenTree × Bool :=
  match source with
  | [] => ([], (if is_skip then sink else sink ++ default field_ident_span), true)
  | .punct c pspc pspan :: rest =>
    if c = '=' then stream_existing_initializer (.punct c pspc pspan :: rest) sink
    else if c = ',' then
      (rest,
        (if is_skip then sink else sink ++ default field_ident_span) ++
          [.punct c pspc pspan],
        false)
    else stream_field_tail field_ident_span is_skip rest (sink ++ [.punct c pspc pspan])
  | tt :: rest => stream_field_tail field_ident_span is_skip rest (sink ++ [tt])

theorem stream_existing_initializer_src_le (source : List TokenTree) :
    ∀ sink, (stream_existing_initializer source sink).1.length ≤ source.length := by
  induction source with
  | nil => intro sink; simp [stream_existing_initializer]
  | cons t rest ih =>
    intro sink
    cases t with
    | punct c pspc pspan =>
      by_cases hc : c = ','
      · simp [stream_existing_initializer, hc]
      · simp only [stream_existing_initializer, if_neg hc, List.length_cons]
        exact (ih _).trans (Nat.le_succ _)
    | ident n s =>
      simp only [stream_existing_initializer, List.length_cons]
      exact (ih _).trans (Nat.le_succ _)
    | lit n s =>
      simp only [stream_existing_initializer, List.length_cons]
      exact (ih _).trans (Nat.le_succ _)
    | group d g s =>
      simp only [stream_existing_initializer, List.length_cons]
      exact (ih _).trans (Nat.le_succ _)

theorem stream_field_tail_src_le (fspan : Nat) (is_skip : Bool) (source : List TokenTree) :
    ∀ sink, (stream_field_tail fspan is_skip source sink).1.length ≤ source.length := by
  induction source with
  | nil => intro sink; simp [stream_field_tail]
  | cons t rest ih =>
    intro sink
    cases t with
    | punct c pspc pspan =>
      by_cases he : c = '='
      · simp only [stream_field_tail, if_pos he]
        exact stream_existing_initializer_src_le _ _
      · by_cases hc : c = ','
        · simp [stream_field_tail, he, hc]
        · simp only [stream_field_tail, if_neg he, if_neg hc, List.length_cons]
          exact (ih _).trans (Nat.le_succ _)
    | ident n s =>
      simp only [stream_field_tail, List.length_cons]
      exact (ih _).trans (Nat.le_succ _)
    | lit n s =>
      simp only [stream_field_tail, List.length_cons]
      exact (ih _).trans (Nat.le_succ _)
    | group d g s =>
      simp only [stream_field_tail, List.length_cons]
      exact (ih _).trans (Nat.le_succ _)

theorem stream_vis_src_le (source sink : List TokenTree) :
    (stream_vis source sink).1.length ≤ source.length := by
  unfold stream_vis
  split
  · split
    · simp; omega
    · simp
  · simp

theorem stream_ident_some_src_lt (source sink : List TokenTree) (sp : Nat)
    (r k : List TokenTree) (h : stream_ident source sink = (some sp, r, k)) :
    r.length < source.length := by
  cases source with
  | nil => simp [stream_ident] at h
  | cons t rest => simp [stream_ident] at h; simp [h.2.1]

theorem stream_attrs_loop_src_le (source sink errors : List TokenTree) (isk : Option Nat) :
    ∀ r, stream_attrs_loop source sink errors isk = .ok r → r.2.1.length ≤ source.length := by
  induction source, sink, errors, isk using stream_attrs_loop.induct with
  | case1 sink errors pspc pspan d attrToks aspan rest2 skip_span fst errors2 hA first ih =>
    intro r h
    rw [stream_attrs_loop] at h
    simp only [hA, reduceIte] at h
    exact (ih r h).trans (by simp only [List.length_cons]; omega)
  | case2 sink errors pspc pspan d attrToks aspan rest2 skip_span fst errors2 hA ih =>
    intro r h
    rw [stream_attrs_loop] at h
    simp only [hA, reduceIte] at h
    exact (ih r h).trans (by simp only [List.length_cons]; omega)
  | case3 sink errors isk pspc pspan d attrToks aspan rest2 attrRest errors2 hA ih =>
    intro r h
    rw [stream_attrs_loop] at h
    simp only [hA, reduceIte] at h
    exact (ih r h).trans (by simp only [List.length_cons]; omega)
  | case4 sink errors isk pspc pspan rest hne =>
    intro r h
    rw [stream_attrs_loop] at h
    · simp at h
    · exact hne
  | case5 sink errors isk c pspc pspan rest hc =>
    intro r h
    rw [stream_attrs_loop.eq_def] at h
    simp only [if_neg hc] at h
    cases h
    simp
  | case6 t sink errors isk hne =>
    intro r h
    rw [stream_attrs_loop] at h
    · cases h; simp
    · exact hne

theorem stream_attrs_src_le (source sink errors : List TokenTree) (allowed : Bool)
    (r : Bool × List TokenTree × List TokenTree × List TokenTree)
    (h : stream_attrs source sink errors allowed = .ok r) : r.2.1.length ≤ source.length := by
  unfold stream_attrs at h
  cases hl : stream_attrs_loop source sink errors none with
  | error e => rw [hl] at h; cases h
  | ok q =>
    rw [hl] at h
    have := stream_attrs_loop_src_le source sink errors none q hl
    obtain ⟨isk, src2, sink2, errors2⟩ := q
    cases isk with
    | some sp =>
      cases hb : allowed with
      | false => simp [hb] at h; rw [← h]; exact this
      | true => simp [hb] at h; rw [← h]; exact this
    | none => simp at h; rw [← h]; exact this

/-- The `'parse_field` loop of `add_default_field_values`: each iteration
parses one field (its attributes, optional visibility, name, `:` token and
tail).  Stops when no field name is left, or when a field ran to end of
input.  Returns the rewritten field tokens and the error stream. -/
def parse_field_loop (input output errors : List TokenTree) (is_skip_variant : Bool) :
    Except String (List TokenTree × List TokenTree) :=
  match h1 : stream_attrs input output errors true with
  | .error e => .error e
  | .ok (is_skip_field, in1, out1, errs1) =>
    match h2 : stream_vis in1 out1 with
    | (in2, out2) =>
      match h3 : stream_ident in2 out2 with
      | (none, _, out3) => .ok (out3, errs1)
      | (some field_ident_span, in3, out3) =>
        let is_skip := is_skip_field || is_skip_variant
        match in3 with
        | [] =>
          match stream_field_tail field_ident_span is_skip [] out3 with
          | (_, out5, _) => .ok (out5, errs1)
        | t :: in4 =>
          match h5 : stream_field_tail field_ident_span is_skip in4 (out3 ++ [t]) with
          | (in5, out5, last) =>
            if last then .ok (out5, errs1)
            else parse_field_loop in5 out5 errs1 is_skip_variant
termination_by input.length
decreasing_by
  have a1 : in1.length ≤ input.length :=
    stream_attrs_src_le input output errors true _ h1
  have a2 : in2.length ≤ in1.length := by
    have := stream_vis_src_le in1 out1
    rw [h2] at this
    exact this
  have a3 : (t :: in4).length < in2.length :=
    stream_ident_some_src_lt in2 out2 field_ident_span _ out3 h3
  have a5 : in5.length ≤ in4.length := by
    have := stream_field_tail_src_le field_ident_span (is_skip_field || is_skip_variant) in4 (out3 ++ [t])
    rw [h5] at this
    exact this
  simp only [List.length_cons] at a3
  omega

/-- `add_default_field_values`: rewrites the brace-delimited field list of a
struct or of a named enum variant, adding `= ::core::default::Default::default()`
to every field that has no initializer and is not skipped.  Always rebuilds a
brace group carrying the input group's span. -/
def add_default_field_values (fields : List TokenTree) (fieldsSpan : Nat)
    (compile_errors : List TokenTree) (is_skip_variant : Bool) :
    Except String (TokenTree × List TokenTree) :=
  match parse_field_loop fields [] compile_errors is_skip_variant with
  | .error e => .error e
  | .ok (output_fields, errors) => .ok (.group .brace output_fields fieldsSpan, errors)

theorem stream_discriminant_src_le (source : List TokenTree) :
    ∀ sink, (stream_discriminant source sink).1.length ≤ source.length := by
  induction source with
  | nil => intro sink; simp [stream_discriminant]
  | cons t rest ih =>
    intro sink
    cases t with
    | punct c pspc pspan =>
      by_cases hc : c = ','
      · simp [stream_discriminant, hc]
      · simp only [stream_discriminant, if_neg hc, List.length_cons]
        exact (ih _).trans (Nat.le_succ _)
    | ident n s =>
      simp only [stream_discriminant, List.length_cons]
      exact (ih _).trans (Nat.le_succ _)
    | lit n s =>
      simp only [stream_discriminant, List.length_cons]
      exact (ih _).trans (Nat.le_succ _)
    | group d g s =>
      simp only [stream_discriminant, List.length_cons]
      exact (ih _).trans (Nat.le_succ _)

theorem stream_enum_variant_discriminant_and_comma_src_le
    (source sink : List TokenTree) (r : List TokenTree × List TokenTree)
    (h : stream_enum_variant_discriminant_and_comma source sink = .ok r) :
    r.1.length ≤ source.length := by
  cases source with
  | nil =>
    simp [stream_enum_variant_discriminant_and_comma] at h
    subst h; simp
  | cons t rest =>
    cases t with
    | punct c pspc pspan =>
      by_cases hc : c = ','
      · simp [stream_enum_variant_discriminant_and_comma, hc] at h
        subst h; simp
      · by_cases he : c = '='
        · simp [stream_enum_variant_discriminant_and_comma, hc, he] at h
          rw [← h]
          exact (stream_discriminant_src_le rest _).trans (Nat.le_succ _)
        · simp [stream_enum_variant_discriminant_and_comma, hc, he] at h
    | ident n s => simp [stream_enum_variant_discriminant_and_comma] at h
    | lit n s => simp [stream_enum_variant_discriminant_and_comma] at h
    | group d g s => simp [stream_enum_variant_discriminant_and_comma] at h

/-- The `disallow_skip` closure of `auto_default`: only variants with named
fields may carry `#[auto_default(skip)]`. -/
def disallow_skip (is_skip : Bool) (variant_ident_span : Nat)
    (errors : List TokenTree) : List TokenTree :=
  if is_skip then
    errors ++
      (CompileError.mk variant_ident_span
        "`#[auto_default(skip)]` is only allowed on variants with named fields").toTokens
  else errors

/-- The enum `loop` of `auto_default`: each iteration parses one variant
(attributes with skip allowed, optional visibility, name) and dispatches on
the peeked token: a brace group is a named-field variant (rewritten,
inheriting the variant's skip), a parenthesis group is a positional variant
(copied verbatim, skip disallowed), `,` or `=` means a unit variant (skip
disallowed), end of input is a final unit variant.  Anything else is the
`unreachable!()` panic. -/
def enum_variants_loop (source sink errors : List TokenTree) :
    Except String (List TokenTree × List TokenTree) :=
  match h1 : stream_attrs source sink errors true with
  | .error e => .error e
  | .ok (is_skip, in1, out1, errs1) =>
    match h2 : stream_vis in1 out1 with
    | (in2, out2) =>
      match h3 : stream_ident in2 out2 with
      | (none, _, out3) => .ok (out3, errs1)
      | (some variant_ident_span, in3, out3) =>
        match in3 with
        | .group .brace gtoks gspan :: rest =>
          match add_default_field_values gtoks gspan errs1 is_skip with
          | .error e => .error e
          | .ok (g, errs2) =>
            match h6 : stream_enum_variant_discriminant_and_comma rest (out3 ++ [g]) with
            | .error e => .error e
            | .ok (rest2, out4) => enum_variants_loop rest2 out4 errs2
        | .group .parenthesis gtoks gspan :: rest =>
          let errs2 := disallow_skip is_skip variant_ident_span errs1
          match h7 : stream_enum_variant_discriminant_and_comma rest
              (out3 ++ [.group .parenthesis gtoks gspan]) with
          | .error e => .error e
          | .ok (rest2, out4) => enum_variants_loop rest2 out4 errs2
        | .punct c pspc pspan :: rest =>
          if c = ',' ∨ c = '=' then
            let errs2 := disallow_skip is_skip variant_ident_span errs1
            match h8 : stream_enum_variant_discriminant_and_comma
                (.punct c pspc pspan :: rest) out3 with
            | .error e => .error e
            | .ok (rest2, out4) => enum_variants_loop rest2 out4 errs2
          else .error "internal error: entered unreachable code"
        | [] => .ok (out3, disallow_skip is_skip variant_ident_span errs1)
        | .group .bracket _ _ :: _ => .error "internal error: entered unreachable code"
        | .group .invisible _ _ :: _ => .error "internal error: entered unreachable code"
        | .ident _ _ :: _ => .error "internal error: entered unreachable code"
        | .lit _ _ :: _ => .error "internal error: entered unreachable code"
termination_by source.length
decreasing_by
  · have a1 : in1.length ≤ source.length := stream_attrs_src_le source sink errors true _ h1
    have a2 : in2.length ≤ in1.length := by
      have := stream_vis_src_le in1 out1; rw [h2] at this; exact this
    have a3 : (TokenTree.group .brace gtoks gspan :: rest).length < in2.length :=
      stream_ident_some_src_lt in2 out2 variant_ident_span _ out3 h3
    have a6 : rest2.length ≤ rest.length :=
      stream_enum_variant_discriminant_and_comma_src_le rest (out3 ++ [g]) _ h6
    simp only [List.length_cons] at a3
    omega
  · have a1 : in1.length ≤ source.length := stream_attrs_src_le source sink errors true _ h1
    have a2 : in2.length ≤ in1.length := by
      have := stream_vis_src_le in1 out1; rw [h2] at this; exact this
    have a3 : (TokenTree.group .parenthesis gtoks gspan :: rest).length < in2.length :=
      stream_ident_some_src_lt in2 out2 variant_ident_span _ out3 h3
    have a7 : rest2.length ≤ rest.length :=
      stream_enum_variant_discriminant_and_comma_src_le rest
        (out3 ++ [.group .parenthesis gtoks gspan]) _ h7
    simp only [List.length_cons] at a3
    omega
  · have a1 : in1.length ≤ source.length := stream_attrs_src_le source sink errors true _ h1
    have a2 : in2.length ≤ in1.length := by
      have := stream_vis_src_le in1 out1; rw [h2] at this; exact this
    have a3 : (TokenTree.punct c pspc pspan :: rest).length < in2.length :=
      stream_ident_some_src_lt in2 out2 variant_ident_span _ out3 h3
    have a8 : rest2.length ≤ (TokenTree.punct c pspc pspan :: rest).length :=
      stream_enum_variant_discriminant_and_comma_src_le _ out3 _ h8
    simp only [List.length_cons] at a3 a8
    omega

/-- Mirrors the `ItemKind` enum. -/
inductive ItemKind where
  | Struct
  | Enum
deriving DecidableEq

/-- The generics `loop` of `auto_default`: copies tokens verbatim into `sink`
until the first brace-delimited group, which is the declaration body.
`none` means end of input was reached without finding a body. -/
def find_body (source sink : List TokenTree) :
    Option (List TokenTree × Nat × List TokenTree) × List TokenTree :=
  match source with
  | .group .brace g gs :: rest => (some (g, gs, rest), sink)
  | tt :: rest => find_body rest (sink ++ [tt])
  | [] => (none, sink)

/-- The tail of `auto_default` after the `struct`/`enum` keyword was consumed:
item name (panic if absent), generics up to the body group (fatal diagnostic
if no body), then the struct field rewrite or the enum variant loop, and
finally the accumulated errors appended after the declaration. -/
def rewrite_item (item_kind : ItemKind) (source sink errors : List TokenTree) :
    Except String (List TokenTree) :=
  match stream_ident source sink with
  | (none, _, _) => .error "`struct` or `enum` keyword is always followed by an identifier"
  | (some item_ident_span, src4, sink4) =>
    match find_body src4 sink4 with
    | (none, _) =>
      .ok (errors ++ (CompileError.mk item_ident_span "expected struct with named fields").toTokens)
    | (some (body, bodySpan, _), sink5) =>
      match item_kind with
      | .Struct =>
        match add_default_field_values body bodySpan errors false with
        | .error e => .error e
        | .ok (g, errs2) => .ok (sink5 ++ [g] ++ errs2)
      | .Enum =>
        match enum_variants_loop body [] errors with
        | .error e => .error e
        | .ok (sink_variants, errs2) =>
          .ok (sink5 ++ [.group .brace sink_variants bodySpan] ++ errs2)

/-- `auto_default`: the whole procedural macro.  `args` is the invocation
argument stream (must be empty), `input` is the annotated item.  `.error`
models a panic (`unreachable!()` / `.expect(..)`). -/
def auto_default (args input : List TokenTree) : Except String (List TokenTree) :=
  let compile_errors : List TokenTree :=
    match args with
    | [] => []
    | tt :: _ => (CompileError.mk tt.span "no arguments expected").toTokens
  match stream_attrs input [] compile_errors false with
  | .error e => .error e
  | .ok (_, src1, sink1, errs1) =>
    match stream_vis src1 sink1 with
    | (src2, sink2) =>
      match src2 with
      | .ident kw ksp :: src3 =>
        if kw = "struct" then
          rewrite_item .Struct src3 (sink2 ++ [.ident kw ksp]) errs1
        else if kw = "enum" then
          rewrite_item .Enum src3 (sink2 ++ [.ident kw ksp]) errs1
        else .ok (errs1 ++ (CompileError.mk ksp "expected a `struct` or an `enum`").toTokens)
      | tt :: _ =>
        .ok (errs1 ++ (CompileError.mk tt.span "expected a `struct` or an `enum`").toTokens)
      | [] =>
        .ok (errs1 ++ (CompileError.mk callSite "expected a `struct` or an `enum`").toTokens)

/-! ## Structured (well-formed) inputs

The language of token streams produced by syntactically valid struct/enum
declarations, described structurally and serialized into raw tokens.  All
positive theorems quantify over this space; the serializers below write down
exactly the token shapes the Rust grammar produces. -/

/-- One `#[auto_default(skip)]` annotation, with the spans of its tokens. -/
structure SkipSpec where
  pspc : Spacing
  pspan : Nat
  adSpan : Nat
  parenSpan : Nat
  skipSpan : Nat
  outerSpan : Nat
deriving DecidableEq

/-- The raw tokens of a skip annotation. -/
def SkipSpec.toTokens (k : SkipSpec) : List TokenTree :=
  [ .punct '#' k.pspc k.pspan,
    .group .bracket
      [ .ident "auto_default" k.adSpan,
        .group .parenthesis [.ident "skip" k.skipSpan] k.parenSpan ]
      k.outerSpan ]

/-- Zero or one skip annotation. -/
def serializeOptSkip : Option SkipSpec → List TokenTree
  | none => []
  | some k => k.toTokens

/-- One ordinary attribute `# <group>`. -/
structure Attr where
  pspc : Spacing
  pspan : Nat
  delim : Delim
  toks : List TokenTree
  span : Nat
deriving DecidableEq

/-- The raw tokens of an ordinary attribute. -/
def Attr.toTokens (a : Attr) : List TokenTree :=
  [.punct '#' a.pspc a.pspan, .group a.delim a.toks a.span]

/-- An attribute body that cannot be mistaken for `auto_default(..)`: its head
is not the identifier `auto_default`. -/
def plainToks : List TokenTree → Bool
  | .ident name _ :: _ => !(name == "auto_default")
  | _ => true

/-- An ordinary attribute that is not in the `auto_default` namespace. -/
def Attr.plain (a : Attr) : Bool := plainToks a.toks

/-- The raw tokens of a list of ordinary attributes. -/
def serializeAttrs (attrs : List Attr) : List TokenTree :=
  attrs.flatMap Attr.toTokens

/-- A `pub` or `pub(...)` visibility qualifier. -/
structure VisSpec where
  span : Nat
  restriction : Option (List TokenTree × Nat)
deriving DecidableEq

/-- The raw tokens of an optional visibility qualifier. -/
def serializeVis : Option VisSpec → List TokenTree
  | none => []
  | some v =>
    match v.restriction with
    | none => [.ident "pub" v.span]
    | some (g, gs) => [.ident "pub" v.span, .group .parenthesis g gs]

/-- One named struct/variant field: optional skip annotation, ordinary
attributes, optional visibility, name, `:`, type tokens, optional
`= initializer`, optional trailing `,`. -/
structure FieldSpec where
  skip : Option SkipSpec
  attrs : List Attr
  vis : Option VisSpec
  name : String
  nameSpan : Nat
  colonSpc : Spacing
  colonSpan : Nat
  ty : List TokenTree
  init : Option (Spacing × Nat × List TokenTree)
  comma : Option (Spacing × Nat)
deriving DecidableEq

/-- The raw tokens of an optional `= initializer`. -/
def serializeInit : Option (Spacing × Nat × List TokenTree) → List TokenTree
  | none => []
  | some (spc, sp, toks) => .punct '=' spc sp :: toks

/-- The raw tokens of an optional trailing comma. -/
def serializeComma : Option (Spacing × Nat) → List TokenTree
  | none => []
  | some (spc, sp) => [.punct ',' spc sp]

/-- The raw tokens of one field. -/
def serializeField (f : FieldSpec) : List TokenTree :=
  serializeOptSkip f.skip ++ serializeAttrs f.attrs ++ serializeVis f.vis ++
    [.ident f.name f.nameSpan, .punct ':' f.colonSpc f.colonSpan] ++ f.ty ++
    serializeInit f.init ++ serializeComma f.comma

/-- The raw tokens of a field list. -/
def serializeFields (fs : List FieldSpec) : List TokenTree :=
  fs.flatMap serializeField

/-- The rewriter's output for one field, as established by the theorems below:
the skip annotation (if any) is removed, everything else is copied in order,
and `= ::core::default::Default::default()` is inserted immediately before
the trailing comma (or at the end) exactly when the field has no initializer
and its effective skip flag (own OR enclosing variant) is false. -/
def outputField (is_skip_variant : Bool) (f : FieldSpec) : List TokenTree :=
  serializeAttrs f.attrs ++ serializeVis f.vis ++
    [.ident f.name f.nameSpan, .punct ':' f.colonSpc f.colonSpan] ++ f.ty ++
    (match f.init with
     | some (spc, sp, toks) => .punct '=' spc sp :: toks
     | none => if f.skip.isSome || is_skip_variant then [] else default f.nameSpan) ++
    serializeComma f.comma

/-- A token allowed inside a field's type: any token that is not a top-level
`=` or `,` punct. -/
def tyTokOk : TokenTree → Bool
  | .punct c _ _ => !(c == '=' || c == ',')
  | _ => true

/-- A token allowed inside an initializer or discriminant expression: any
token that is not a top-level `,` punct. -/
def noComma : TokenTree → Bool
  | .punct c _ _ => !(c == ',')
  | _ => true

/-- Well-formedness of an optional initializer. -/
def initOk : Option (Spacing × Nat × List TokenTree) → Bool
  | none => true
  | some (_, _, toks) => toks.all noComma

/-- Well-formedness of one field. -/
def wfField (f : FieldSpec) : Bool :=
  !(f.name == "pub") && f.attrs.all Attr.plain && f.ty.all tyTokOk && initOk f.init

/-- Well-formedness of a field list: every field well-formed and every field
except possibly the last carries a trailing comma. -/
def wfFields : List FieldSpec → Bool
  | [] => true
  | [f] => wfField f
  | f :: fs => wfField f && f.comma.isSome && wfFields fs

/-- Source heads that do not start another attribute. -/
def headNotPound : List TokenTree → Bool
  | .punct c _ _ :: _ => !(c == '#')
  | _ => true

/-! ## Stepping lemmas -/

theorem is_skip_attribute_plain (toks errs : List TokenTree)
    (h : plainToks toks = true) :
    is_skip_attribute toks errs = (none, toks, errs) := by
  cases toks with
  | nil => rfl
  | cons t rest =>
    cases t with
    | ident name sp =>
      have h2 : ¬ name = "auto_default" := by
        simpa [plainToks] using h
      rw [is_skip_attribute.eq_def]
      simp [h2]
    | punct c pspc pspan => rfl
    | lit te sp => rfl
    | group d g sp => rfl

theorem is_skip_attribute_skip (k : SkipSpec) (errs : List TokenTree) :
    is_skip_attribute
        [ .ident "auto_default" k.adSpan,
          .group .parenthesis [.ident "skip" k.skipSpan] k.parenSpan ] errs
      = (some k.skipSpan, [], errs) := by
  rw [is_skip_attribute.eq_def]
  simp

theorem stream_attrs_loop_plain_attr (a : Attr) (ha : a.plain = true)
    (rest sink errors : List TokenTree) (isk : Option Nat) :
    stream_attrs_loop (a.toTokens ++ rest) sink errors isk
      = stream_attrs_loop rest (sink ++ a.toTokens) errors isk := by
  rw [Attr.toTokens]
  rw [stream_attrs_loop.eq_def]
  simp [is_skip_attribute_plain a.toks errors ha, Attr.toTokens]

theorem stream_attrs_loop_skip_first (k : SkipSpec)
    (rest sink errors : List TokenTree) :
    stream_attrs_loop (k.toTokens ++ rest) sink errors none
      = stream_attrs_loop rest sink errors (some k.skipSpan) := by
  rw [SkipSpec.toTokens]
  rw [stream_attrs_loop.eq_def]
  simp [is_skip_attribute_skip k errors, SkipSpec.toTokens]

theorem stream_attrs_loop_skip_dup (k : SkipSpec) (j : Nat)
    (rest sink errors : List TokenTree) :
    stream_attrs_loop (k.toTokens ++ rest) sink errors (some j)
      = stream_attrs_loop rest sink
          (errors ++ (CompileError.mk k.skipSpan "duplicate `#[auto_default(skip)]`").toTokens)
          (some j) := by
  rw [SkipSpec.toTokens]
  rw [stream_attrs_loop.eq_def]
  simp [is_skip_attribute_skip k errors, SkipSpec.toTokens]

theorem stream_attrs_loop_stop (source sink errors : List TokenTree) (isk : Option Nat)
    (h : headNotPound source = true) :
    stream_attrs_loop source sink errors isk = .ok (isk, source, sink, errors) := by
  cases source with
  | nil => rw [stream_attrs_loop.eq_def]
  | cons t rest =>
    cases t with
    | punct c pspc pspan =>
      have h2 : ¬ c = '#' := by
        simpa [headNotPound] using h
      rw [stream_attrs_loop.eq_def]
      simp [h2]
    | ident n sp => rw [stream_attrs_loop.eq_def]
    | lit te sp => rw [stream_attrs_loop.eq_def]
    | group d g sp => rw [stream_attrs_loop.eq_def]

theorem stream_attrs_loop_attrs (attrs : List Attr) (ha : attrs.all Attr.plain = true)
    (rest sink errors : List TokenTree) (isk : Option Nat) :
    stream_attrs_loop (serializeAttrs attrs ++ rest) sink errors isk
      = stream_attrs_loop rest (sink ++ serializeAttrs attrs) errors isk := by
  induction attrs generalizing sink with
  | nil => simp [serializeAttrs]
  | cons a attrs ih =>
    simp only [List.all_cons, Bool.and_eq_true] at ha
    have : serializeAttrs (a :: attrs) = a.toTokens ++ serializeAttrs attrs := by
      simp [serializeAttrs]
    rw [this, List.append_assoc, stream_attrs_loop_plain_attr a ha.1,
      ih ha.2, List.append_assoc]

/-- `stream_attrs` on a serialized `(optional skip, plain attributes)` prefix:
the skip annotation is consumed (never forwarded), plain attributes are
forwarded verbatim, and the container diagnostic is appended exactly when a
skip was present in a context where skip is not allowed. -/
theorem stream_attrs_serialized (skip : Option SkipSpec) (attrs : List Attr)
    (ha : attrs.all Attr.plain = true) (rest : List TokenTree)
    (hr : headNotPound rest = true) (sink errors : List TokenTree) (allowed : Bool) :
    stream_attrs (serializeOptSkip skip ++ serializeAttrs attrs ++ rest) sink errors allowed
      = .ok (skip.isSome, rest, sink ++ serializeAttrs attrs,
          errors ++
            match skip with
            | some k =>
              if !allowed then
                (CompileError.mk k.skipSpan
                  "`#[auto_default(skip)]` is not allowed on container").toTokens
              else []
            | none => []) := by
  cases skip with
  | none =>
    rw [stream_attrs]
    simp only [serializeOptSkip, List.nil_append]
    rw [stream_attrs_loop_attrs attrs ha, stream_attrs_loop_stop _ _ _ _ hr]
    simp
  | some k =>
    rw [stream_attrs]
    simp only [serializeOptSkip, List.append_assoc]
    rw [stream_attrs_loop_skip_first, stream_attrs_loop_attrs attrs ha,
      stream_attrs_loop_stop _ _ _ _ hr]
    cases allowed <;> simp

/-- `stream_vis` on a serialized optional visibility followed by an identifier
that is not `pub`: the visibility is copied and the identifier left in place. -/
theorem stream_vis_serialized (v : Option VisSpec) (name : String)
    (hn : ¬ name = "pub") (nsp : Nat) (rest2 sink : List TokenTree) :
    stream_vis (serializeVis v ++ .ident name nsp :: rest2) sink
      = (.ident name nsp :: rest2, sink ++ serializeVis v) := by
  cases v with
  | none =>
    rw [serializeVis]
    rw [stream_vis.eq_def]
    simp [hn]
  | some v2 =>
    cases hr : v2.restriction with
    | none =>
      rw [serializeVis, hr]
      rw [stream_vis.eq_def]
      simp
    | some g =>
      obtain ⟨gtoks, gspan⟩ := g
      rw [serializeVis, hr]
      rw [stream_vis.eq_def]
      simp

theorem stream_existing_initializer_nocomma (toks : List TokenTree)
    (h : toks.all noComma = true) (rest sink : List TokenTree) :
    stream_existing_initializer (toks ++ rest) sink
      = stream_existing_initializer rest (sink ++ toks) := by
  induction toks generalizing sink with
  | nil => simp
  | cons t toks ih =>
    simp only [List.all_cons, Bool.and_eq_true] at h
    cases t with
    | punct c pspc pspan =>
      have h2 : ¬ c = ',' := by simpa [noComma] using h.1
      rw [List.cons_append, stream_existing_initializer.eq_def]
      simp only [if_neg h2]
      rw [ih h.2]
      simp
    | ident n sp =>
      rw [List.cons_append, stream_existing_initializer.eq_def]
      simp only []
      rw [ih h.2]
      simp
    | lit te sp =>
      rw [List.cons_append, stream_existing_initializer.eq_def]
      simp only []
      rw [ih h.2]
      simp
    | group d g sp =>
      rw [List.cons_append, stream_existing_initializer.eq_def]
      simp only []
      rw [ih h.2]
      simp

theorem stream_field_tail_ty (fspan : Nat) (is_skip : Bool) (ty : List TokenTree)
    (hty : ty.all tyTokOk = true) (rest sink : List TokenTree) :
    stream_field_tail fspan is_skip (ty ++ rest) sink
      = stream_field_tail fspan is_skip rest (sink ++ ty) := by
  induction ty generalizing sink with
  | nil => simp
  | cons t ty ih =>
    simp only [List.all_cons, Bool.and_eq_true] at hty
    cases t with
    | punct c pspc pspan =>
      have h2 : ¬ (c = '=' ∨ c = ',') := by
        simpa [tyTokOk] using hty.1
      push_neg at h2
      rw [List.cons_append, stream_field_tail.eq_def]
      simp only [if_neg h2.1, if_neg h2.2]
      rw [ih hty.2]
      simp
    | ident n sp =>
      rw [List.cons_append, stream_field_tail.eq_def]
      simp only []
      rw [ih hty.2]
      simp
    | lit te sp =>
      rw [List.cons_append, stream_field_tail.eq_def]
      simp only []
      rw [ih hty.2]
      simp
    | group d g sp =>
      rw [List.cons_append, stream_field_tail.eq_def]
      simp only []
      rw [ih hty.2]
      simp

/-- The initializer-or-injection tokens the rewriter leaves after the type. -/
def tailInitOut (fspan : Nat) (is_skip : Bool)
    (init : Option (Spacing × Nat × List TokenTree)) : List TokenTree :=
  match init with
  | some (spc, sp, toks) => .punct '=' spc sp :: toks
  | none => if is_skip then [] else default fspan

theorem stream_field_tail_serialized_comma (fspan : Nat) (is_skip : Bool)
    (ty : List TokenTree) (hty : ty.all tyTokOk = true)
    (init : Option (Spacing × Nat × List TokenTree)) (hinit : initOk init = true)
    (spc : Spacing) (sp : Nat) (rest sink : List TokenTree) :
    stream_field_tail fspan is_skip
        (ty ++ serializeInit init ++ .punct ',' spc sp :: rest) sink
      = (rest, sink ++ ty ++ tailInitOut fspan is_skip init ++ [.punct ',' spc sp],
         false) := by
  rw [List.append_assoc, stream_field_tail_ty fspan is_skip ty hty]
  cases init with
  | none =>
    rw [serializeInit, tailInitOut]
    rw [List.nil_append, stream_field_tail.eq_def]
    cases is_skip <;> simp
  | some i =>
    obtain ⟨ispc, isp, toks⟩ := i
    rw [serializeInit, tailInitOut]
    rw [List.cons_append, stream_field_tail.eq_def]
    simp only [reduceIte]
    have hall : (TokenTree.punct '=' ispc isp :: toks).all noComma = true := by
      simp only [List.all_cons, Bool.and_eq_true]
      exact ⟨by simp [noComma], by simpa [initOk] using hinit⟩
    rw [show TokenTree.punct '=' ispc isp :: (toks ++ TokenTree.punct ',' spc sp :: rest)
        = (TokenTree.punct '=' ispc isp :: toks) ++ (TokenTree.punct ',' spc sp :: rest) by simp,
      stream_existing_initializer_nocomma _ hall]
    rw [stream_existing_initializer.eq_def]
    simp

theorem stream_field_tail_serialized_nocomma (fspan : Nat) (is_skip : Bool)
    (ty : List TokenTree) (hty : ty.all tyTokOk = true)
    (init : Option (Spacing × Nat × List TokenTree)) (hinit : initOk init = true)
    (sink : List TokenTree) :
    stream_field_tail fspan is_skip (ty ++ serializeInit init) sink
      = ([], sink ++ ty ++ tailInitOut fspan is_skip init, true) := by
  rw [stream_field_tail_ty fspan is_skip ty hty]
  cases init with
  | none =>
    rw [serializeInit, tailInitOut]
    rw [stream_field_tail.eq_def]
    cases is_skip <;> simp
  | some i =>
    obtain ⟨ispc, isp, toks⟩ := i
    rw [serializeInit, tailInitOut]
    rw [stream_field_tail.eq_def]
    simp only [reduceIte]
    have hall : (TokenTree.punct '=' ispc isp :: toks).all noComma = true := by
      simp only [List.all_cons, Bool.and_eq_true]
      exact ⟨by simp [noComma], by simpa [initOk] using hinit⟩
    rw [show TokenTree.punct '=' ispc isp :: toks
        = (TokenTree.punct '=' ispc isp :: toks) ++ [] by simp,
      stream_existing_initializer_nocomma _ hall]
    rw [stream_existing_initializer.eq_def]
    simp

theorem stream_attrs_serialized_allowed (skip : Option SkipSpec) (attrs : List Attr)
    (ha : attrs.all Attr.plain = true) (rest : List TokenTree)
    (hr : headNotPound rest = true) (sink errors : List TokenTree) :
    stream_attrs (serializeOptSkip skip ++ serializeAttrs attrs ++ rest) sink errors true
      = .ok (skip.isSome, rest, sink ++ serializeAttrs attrs, errors) := by
  rw [stream_attrs_serialized skip attrs ha rest hr]
  cases skip <;> simp

theorem headNotPound_vis_ident (v : Option VisSpec) (name : String) (nsp : Nat)
    (rest : List TokenTree) :
    headNotPound (serializeVis v ++ .ident name nsp :: rest) = true := by
  cases v with
  | none => rfl
  | some v2 =>
    cases hr : v2.restriction with
    | none => simp [serializeVis, hr, headNotPound]
    | some g => obtain ⟨gt, gs⟩ := g; simp [serializeVis, hr, headNotPound]

/-- `outputField`, re-expressed through `tailInitOut`. -/
theorem outputField_eq (vskip : Bool) (f : FieldSpec) :
    outputField vskip f
      = serializeAttrs f.attrs ++ serializeVis f.vis ++
          [.ident f.name f.nameSpan, .punct ':' f.colonSpc f.colonSpan] ++ f.ty ++
          tailInitOut f.nameSpan (f.skip.isSome || vskip) f.init ++
          serializeComma f.comma := by
  cases hi : f.init with
  | none => simp [outputField, tailInitOut, hi]
  | some i => obtain ⟨ispc, isp, toks⟩ := i; simp [outputField, tailInitOut, hi]

/-- One iteration of the `'parse_field` loop on a well-formed field with a
trailing comma: the field is consumed and `outputField` appended to the sink. -/
theorem parse_field_loop_step (f : FieldSpec) (hf : wfField f = true)
    (cspc : Spacing) (csp : Nat) (hc : f.comma = some (cspc, csp))
    (rest out errs : List TokenTree) (vskip : Bool) :
    parse_field_loop (serializeField f ++ rest) out errs vskip
      = parse_field_loop rest (out ++ outputField vskip f) errs vskip := by
  simp only [wfField, Bool.and_eq_true] at hf
  obtain ⟨⟨⟨hname, hattrs⟩, hty⟩, hinit⟩ := hf
  have hname2 : ¬ f.name = "pub" := by simpa using hname
  have hser : serializeField f ++ rest
      = serializeOptSkip f.skip ++ serializeAttrs f.attrs ++
          (serializeVis f.vis ++ .ident f.name f.nameSpan ::
            (.punct ':' f.colonSpc f.colonSpan ::
              (f.ty ++ serializeInit f.init ++ .punct ',' cspc csp :: rest))) := by
    rw [serializeField, hc, serializeComma]
    simp
  rw [parse_field_loop]
  rw [hser, stream_attrs_serialized_allowed f.skip f.attrs hattrs _
    (headNotPound_vis_ident f.vis f.name f.nameSpan _) out errs]
  simp only []
  rw [stream_vis_serialized f.vis f.name hname2 f.nameSpan _ (out ++ serializeAttrs f.attrs)]
  simp only [stream_ident, TokenTree.span]
  rw [stream_field_tail_serialized_comma f.nameSpan (f.skip.isSome || vskip) f.ty hty
    f.init hinit cspc csp rest]
  simp only [Bool.false_eq_true, reduceIte]
  rw [outputField_eq, hc, serializeComma]
  simp

/-- The `'parse_field` loop on a well-formed final field with no trailing
comma: the loop ends via the end-of-input break. -/
theorem parse_field_loop_last (f : FieldSpec) (hf : wfField f = true)
    (hc : f.comma = none) (out errs : List TokenTree) (vskip : Bool) :
    parse_field_loop (serializeField f) out errs vskip
      = .ok (out ++ outputField vskip f, errs) := by
  simp only [wfField, Bool.and_eq_true] at hf
  obtain ⟨⟨⟨hname, hattrs⟩, hty⟩, hinit⟩ := hf
  have hname2 : ¬ f.name = "pub" := by simpa using hname
  have hser : serializeField f
      = serializeOptSkip f.skip ++ serializeAttrs f.attrs ++
          (serializeVis f.vis ++ .ident f.name f.nameSpan ::
            (.punct ':' f.colonSpc f.colonSpan ::
              (f.ty ++ serializeInit f.init))) := by
    rw [serializeField, hc, serializeComma]
    simp
  rw [parse_field_loop]
  rw [hser, stream_attrs_serialized_allowed f.skip f.attrs hattrs _
    (headNotPound_vis_ident f.vis f.name f.nameSpan _) out errs]
  simp only []
  rw [stream_vis_serialized f.vis f.name hname2 f.nameSpan _ (out ++ serializeAttrs f.attrs)]
  simp only [stream_ident, TokenTree.span]
  rw [stream_field_tail_serialized_nocomma f.nameSpan (f.skip.isSome || vskip) f.ty hty
    f.init hinit]
  simp only [reduceIte]
  rw [outputField_eq, hc, serializeComma]
  simp

/-- The `'parse_field` loop on an exhausted field list. -/
theorem parse_field_loop_nil (out errs : List TokenTree) (vskip : Bool) :
    parse_field_loop [] out errs vskip = .ok (out, errs) := by
  have ha : stream_attrs [] out errs true = .ok (false, [], out, errs) := by
    rw [stream_attrs]
    rw [stream_attrs_loop_stop [] out errs none rfl]
  rw [parse_field_loop, ha]
  simp [stream_vis, stream_ident]

/-- The `'parse_field` loop on a serialized well-formed field list rewrites
every field by `outputField`, in order, and touches nothing else. -/
theorem parse_field_loop_serialized (fs : List FieldSpec) (hw : wfFields fs = true)
    (out errs : List TokenTree) (vskip : Bool) :
    parse_field_loop (serializeFields fs) out errs vskip
      = .ok (out ++ fs.flatMap (outputField vskip), errs) := by
  revert hw
  induction fs generalizing out with
  | nil =>
    intro hw
    simp [serializeFields, parse_field_loop_nil]
  | cons f fs ih =>
    intro hw
    cases fs with
    | nil =>
      have hf : wfField f = true := by simpa [wfFields] using hw
      cases hc : f.comma with
      | none =>
        have hs : serializeFields [f] = serializeField f := by simp [serializeFields]
        rw [hs, parse_field_loop_last f hf hc]
        simp
      | some c =>
        obtain ⟨cspc, csp⟩ := c
        have hs : serializeFields [f] = serializeField f ++ [] := by simp [serializeFields]
        rw [hs, parse_field_loop_step f hf cspc csp hc, parse_field_loop_nil]
        simp
    | cons f2 fs2 =>
      have hw2 : wfField f = true ∧ f.comma.isSome = true ∧ wfFields (f2 :: fs2) = true := by
        simpa [wfFields, Bool.and_eq_true, and_assoc] using hw
      obtain ⟨hf, hcs, hwtail⟩ := hw2
      obtain ⟨⟨cspc, csp⟩, hc⟩ := Option.isSome_iff_exists.mp hcs
      have hs : serializeFields (f :: f2 :: fs2)
          = serializeField f ++ serializeFields (f2 :: fs2) := by
        simp [serializeFields]
      rw [hs, parse_field_loop_step f hf cspc csp hc, ih _ hwtail]
      simp

/-- `add_default_field_values` on a serialized well-formed field list. -/
theorem add_default_field_values_serialized (fs : List FieldSpec)
    (hw : wfFields fs = true) (span : Nat) (errs : List TokenTree) (vskip : Bool) :
    add_default_field_values (serializeFields fs) span errs vskip
      = .ok (.group .brace (fs.flatMap (outputField vskip)) span, errs) := by
  rw [add_default_field_values, parse_field_loop_serialized fs hw [] errs vskip]
  simp

/-! ## Structured enums -/

/-- An enum variant's payload shape: unit, positional `( ... )`, or a named
field list `{ ... }`. -/
inductive VariantPayload where
  | unit
  | positional (toks : List TokenTree) (span : Nat)
  | named (fields : List FieldSpec) (span : Nat)
deriving DecidableEq

/-- One enum variant: optional skip annotation, ordinary attributes, optional
visibility, name, payload, optional `= discriminant`, optional trailing `,`. -/
structure VariantSpec where
  skip : Option SkipSpec
  attrs : List Attr
  vis : Option VisSpec
  name : String
  nameSpan : Nat
  payload : VariantPayload
  disc : Option (Spacing × Nat × List TokenTree)
  comma : Option (Spacing × Nat)
deriving DecidableEq

/-- The raw tokens of a variant payload. -/
def serializePayload : VariantPayload → List TokenTree
  | .unit => []
  | .positional toks span => [.group .parenthesis toks span]
  | .named fields span => [.group .brace (serializeFields fields) span]

/-- The raw tokens of one variant. -/
def serializeVariant (v : VariantSpec) : List TokenTree :=
  serializeOptSkip v.skip ++ serializeAttrs v.attrs ++ serializeVis v.vis ++
    [.ident v.name v.nameSpan] ++ serializePayload v.payload ++
    serializeInit v.disc ++ serializeComma v.comma

/-- The raw tokens of a variant list. -/
def serializeVariants (vs : List VariantSpec) : List TokenTree :=
  vs.flatMap serializeVariant

/-- The rewriter's output for a variant payload: unit and positional payloads
are copied verbatim; a named payload has its fields rewritten with the
variant's skip flag passed down. -/
def outputPayload (is_skip : Bool) : VariantPayload → List TokenTree
  | .unit => []
  | .positional toks span => [.group .parenthesis toks span]
  | .named fields span => [.group .brace (fields.flatMap (outputField is_skip)) span]

/-- The rewriter's output for one variant (skip annotation removed, payload
handled by `outputPayload`, everything else verbatim). -/
def variantOutput (v : VariantSpec) : List TokenTree :=
  serializeAttrs v.attrs ++ serializeVis v.vis ++ [.ident v.name v.nameSpan] ++
    outputPayload v.skip.isSome v.payload ++ serializeInit v.disc ++
    serializeComma v.comma

/-- Whether a payload is a named field list. -/
def payloadIsNamed : VariantPayload → Bool
  | .named _ _ => true
  | _ => false

/-- The diagnostics one variant contributes: a placement error iff it carries
a skip annotation but is not a named-field variant. -/
def variantError (v : VariantSpec) : List TokenTree :=
  if v.skip.isSome && !payloadIsNamed v.payload then
    (CompileError.mk v.nameSpan
      "`#[auto_default(skip)]` is only allowed on variants with named fields").toTokens
  else []

/-- Well-formedness of one variant. -/
def wfVariant (v : VariantSpec) : Bool :=
  !(v.name == "pub") && v.attrs.all Attr.plain && initOk v.disc &&
    (match v.payload with
     | .named fields _ => wfFields fields
     | _ => true)

/-- Well-formedness of a variant list: every variant well-formed and every
variant except possibly the last carries a trailing comma. -/
def wfVariants : List VariantSpec → Bool
  | [] => true
  | [v] => wfVariant v
  | v :: vs => wfVariant v && v.comma.isSome && wfVariants vs

theorem stream_discriminant_nocomma (toks : List TokenTree)
    (h : toks.all noComma = true) (rest sink : List TokenTree) :
    stream_discriminant (toks ++ rest) sink = stream_discriminant rest (sink ++ toks) := by
  induction toks generalizing sink with
  | nil => simp
  | cons t toks ih =>
    simp only [List.all_cons, Bool.and_eq_true] at h
    cases t with
    | punct c pspc pspan =>
      have h2 : ¬ c = ',' := by simpa [noComma] using h.1
      rw [List.cons_append, stream_discriminant.eq_def]
      simp only [if_neg h2]
      rw [ih h.2]
      simp
    | ident n sp =>
      rw [List.cons_append, stream_discriminant.eq_def]
      simp only []
      rw [ih h.2]
      simp
    | lit te sp =>
      rw [List.cons_append, stream_discriminant.eq_def]
      simp only []
      rw [ih h.2]
      simp
    | group d g sp =>
      rw [List.cons_append, stream_discriminant.eq_def]
      simp only []
      rw [ih h.2]
      simp

theorem stream_discriminant_all_nocomma (toks : List TokenTree)
    (h : toks.all noComma = true) (sink : List TokenTree) :
    stream_discriminant toks sink = ([], sink ++ toks) := by
  have h2 := stream_discriminant_nocomma toks h [] sink
  rw [List.append_nil] at h2
  rw [h2, stream_discriminant.eq_def]

theorem stream_discriminant_comma (toks : List TokenTree)
    (h : toks.all noComma = true) (cspc : Spacing) (csp : Nat)
    (rest sink : List TokenTree) :
    stream_discriminant (toks ++ .punct ',' cspc csp :: rest) sink
      = (rest, sink ++ toks ++ [.punct ',' cspc csp]) := by
  rw [stream_discriminant_nocomma toks h]
  rw [stream_discriminant.eq_def]
  simp

/-- `stream_enum_variant_discriminant_and_comma` on a serialized optional
discriminant and optional comma.  When the comma is absent, the variant must
be the last one (`rest = []`). -/
theorem stream_enum_variant_discriminant_and_comma_serialized
    (disc : Option (Spacing × Nat × List TokenTree)) (hd : initOk disc = true)
    (comma : Option (Spacing × Nat)) (rest sink : List TokenTree)
    (hlast : comma = none → rest = []) :
    stream_enum_variant_discriminant_and_comma
        (serializeInit disc ++ serializeComma comma ++ rest) sink
      = .ok (rest, sink ++ serializeInit disc ++ serializeComma comma) := by
  cases disc with
  | none =>
    cases comma with
    | none =>
      rw [hlast rfl, serializeInit, serializeComma]
      rw [stream_enum_variant_discriminant_and_comma.eq_def]
      simp
    | some c =>
      obtain ⟨cspc, csp⟩ := c
      rw [serializeInit, serializeComma]
      rw [stream_enum_variant_discriminant_and_comma.eq_def]
      simp
  | some i =>
    obtain ⟨ispc, isp, toks⟩ := i
    have htoks : toks.all noComma = true := by simpa [initOk] using hd
    cases comma with
    | none =>
      rw [hlast rfl, serializeInit, serializeComma]
      rw [stream_enum_variant_discriminant_and_comma.eq_def]
      simp only [List.append_nil, List.cons_append, reduceIte, reduceCtorEq]
      rw [if_neg (show ¬ ('=' : Char) = ',' by decide)]
      rw [stream_discriminant_all_nocomma toks htoks]
      simp
    | some c =>
      obtain ⟨cspc, csp⟩ := c
      rw [serializeInit, serializeComma]
      rw [stream_enum_variant_discriminant_and_comma.eq_def]
      simp only [List.cons_append, List.append_assoc, List.nil_append, reduceIte, reduceCtorEq]
      rw [if_neg (show ¬ ('=' : Char) = ',' by decide)]
      rw [stream_discriminant_comma toks htoks cspc csp rest]
      simp

theorem disallow_skip_eq (b : Bool) (sp : Nat) (errs : List TokenTree) :
    disallow_skip b sp errs
      = errs ++
          (if b then
            (CompileError.mk sp
              "`#[auto_default(skip)]` is only allowed on variants with named fields").toTokens
          else []) := by
  cases b <;> simp [disallow_skip]

theorem enum_variants_loop_nil (out errs : List TokenTree) :
    enum_variants_loop [] out errs = .ok (out, errs) := by
  have ha : stream_attrs [] out errs true = .ok (false, [], out, errs) := by
    rw [stream_attrs]
    rw [stream_attrs_loop_stop [] out errs none rfl]
  rw [enum_variants_loop, ha]
  simp [stream_vis, stream_ident]

/-- One iteration of the enum variant loop on a well-formed variant with a
trailing comma. -/
theorem enum_variants_loop_step (v : VariantSpec) (hv : wfVariant v = true)
    (cspc : Spacing) (csp : Nat) (hc : v.comma = some (cspc, csp))
    (rest out errs : List TokenTree) :
    enum_variants_loop (serializeVariant v ++ rest) out errs
      = enum_variants_loop rest (out ++ variantOutput v) (errs ++ variantError v) := by
  simp only [wfVariant, Bool.and_eq_true] at hv
  obtain ⟨⟨⟨hname, hattrs⟩, hdisc⟩, hpay⟩ := hv
  have hname2 : ¬ v.name = "pub" := by simpa using hname
  cases hp : v.payload with
  | named fields span =>
    have hser : serializeVariant v ++ rest
        = serializeOptSkip v.skip ++ serializeAttrs v.attrs ++
            (serializeVis v.vis ++ .ident v.name v.nameSpan ::
              (.group .brace (serializeFields fields) span ::
                (serializeInit v.disc ++ serializeComma v.comma ++ rest))) := by
      rw [serializeVariant, hp, serializePayload]
      simp
    rw [enum_variants_loop]
    rw [hser, stream_attrs_serialized_allowed v.skip v.attrs hattrs _
      (headNotPound_vis_ident v.vis v.name v.nameSpan _) out errs]
    simp only []
    rw [stream_vis_serialized v.vis v.name hname2 v.nameSpan _ (out ++ serializeAttrs v.attrs)]
    simp only [stream_ident, TokenTree.span]
    rw [hp] at hpay
    rw [add_default_field_values_serialized fields hpay span errs v.skip.isSome]
    simp only []
    rw [stream_enum_variant_discriminant_and_comma_serialized v.disc hdisc v.comma rest _
      (by rw [hc]; intro hx; cases hx)]
    rw [variantError, hp]
    simp [variantOutput, outputPayload, hp, hc, serializeComma, payloadIsNamed]
  | positional ptoks span =>
    have hser : serializeVariant v ++ rest
        = serializeOptSkip v.skip ++ serializeAttrs v.attrs ++
            (serializeVis v.vis ++ .ident v.name v.nameSpan ::
              (.group .parenthesis ptoks span ::
                (serializeInit v.disc ++ serializeComma v.comma ++ rest))) := by
      rw [serializeVariant, hp, serializePayload]
      simp
    rw [enum_variants_loop]
    rw [hser, stream_attrs_serialized_allowed v.skip v.attrs hattrs _
      (headNotPound_vis_ident v.vis v.name v.nameSpan _) out errs]
    simp only []
    rw [stream_vis_serialized v.vis v.name hname2 v.nameSpan _ (out ++ serializeAttrs v.attrs)]
    simp only [stream_ident, TokenTree.span]
    rw [stream_enum_variant_discriminant_and_comma_serialized v.disc hdisc v.comma rest _
      (by rw [hc]; intro hx; cases hx)]
    rw [disallow_skip_eq, variantError, hp]
    simp [variantOutput, outputPayload, hp, hc, serializeComma, payloadIsNamed]
  | unit =>
    cases hd : v.disc with
    | none =>
      have hser : serializeVariant v ++ rest
          = serializeOptSkip v.skip ++ serializeAttrs v.attrs ++
              (serializeVis v.vis ++ .ident v.name v.nameSpan ::
                (.punct ',' cspc csp :: rest)) := by
        rw [serializeVariant, hp, serializePayload, hd, serializeInit, hc, serializeComma]
        simp
      rw [enum_variants_loop]
      rw [hser, stream_attrs_serialized_allowed v.skip v.attrs hattrs _
        (headNotPound_vis_ident v.vis v.name v.nameSpan _) out errs]
      simp only []
      rw [stream_vis_serialized v.vis v.name hname2 v.nameSpan _ (out ++ serializeAttrs v.attrs)]
      simp only [stream_ident, TokenTree.span]
      simp only [true_or, or_true, if_true]
      have hx : stream_enum_variant_discriminant_and_comma
          (TokenTree.punct ',' cspc csp :: rest)
          (out ++ serializeAttrs v.attrs ++ serializeVis v.vis ++ [TokenTree.ident v.name v.nameSpan])
          = .ok (rest,
              (out ++ serializeAttrs v.attrs ++ serializeVis v.vis ++
                [TokenTree.ident v.name v.nameSpan]) ++ [TokenTree.punct ',' cspc csp]) := by
        have h2 := stream_enum_variant_discriminant_and_comma_serialized none rfl
          (some (cspc, csp)) rest
          (out ++ serializeAttrs v.attrs ++ serializeVis v.vis ++
            [TokenTree.ident v.name v.nameSpan])
          (by intro hx; cases hx)
        simpa [serializeInit, serializeComma] using h2
      rw [hx]
      rw [disallow_skip_eq, variantError, hp]
      simp [variantOutput, outputPayload, hp, hd, hc, serializeInit, serializeComma,
        payloadIsNamed]
    | some i =>
      obtain ⟨ispc, isp, dtoks⟩ := i
      have hser : serializeVariant v ++ rest
          = serializeOptSkip v.skip ++ serializeAttrs v.attrs ++
              (serializeVis v.vis ++ .ident v.name v.nameSpan ::
                (.punct '=' ispc isp :: (dtoks ++ .punct ',' cspc csp :: rest))) := by
        rw [serializeVariant, hp, serializePayload, hd, serializeInit, hc, serializeComma]
        simp
      rw [enum_variants_loop]
      rw [hser, stream_attrs_serialized_allowed v.skip v.attrs hattrs _
        (headNotPound_vis_ident v.vis v.name v.nameSpan _) out errs]
      simp only []
      rw [stream_vis_serialized v.vis v.name hname2 v.nameSpan _ (out ++ serializeAttrs v.attrs)]
      simp only [stream_ident, TokenTree.span]
      simp only [true_or, or_true, if_true]
      have hx : stream_enum_variant_discriminant_and_comma
          (TokenTree.punct '=' ispc isp :: (dtoks ++ TokenTree.punct ',' cspc csp :: rest))
          (out ++ serializeAttrs v.attrs ++ serializeVis v.vis ++
            [TokenTree.ident v.name v.nameSpan])
          = .ok (rest,
              (out ++ serializeAttrs v.attrs ++ serializeVis v.vis ++
                [TokenTree.ident v.name v.nameSpan]) ++
                (TokenTree.punct '=' ispc isp :: dtoks) ++ [TokenTree.punct ',' cspc csp]) := by
        have h2 := stream_enum_variant_discriminant_and_comma_serialized
          (some (ispc, isp, dtoks)) (by rw [hd] at hdisc; exact hdisc)
          (some (cspc, csp)) rest
          (out ++ serializeAttrs v.attrs ++ serializeVis v.vis ++
            [TokenTree.ident v.name v.nameSpan])
          (by intro hx; cases hx)
        simpa [serializeInit, serializeComma] using h2
      rw [hx]
      rw [disallow_skip_eq, variantError, hp]
      simp [variantOutput, outputPayload, hp, hd, hc, serializeInit, serializeComma,
        payloadIsNamed]

/-- The enum variant loop on a well-formed final variant with no trailing
comma. -/
theorem enum_variants_loop_last (v : VariantSpec) (hv : wfVariant v = true)
    (hc : v.comma = none) (out errs : List TokenTree) :
    enum_variants_loop (serializeVariant v) out errs
      = .ok (out ++ variantOutput v, errs ++ variantError v) := by
  simp only [wfVariant, Bool.and_eq_true] at hv
  obtain ⟨⟨⟨hname, hattrs⟩, hdisc⟩, hpay⟩ := hv
  have hname2 : ¬ v.name = "pub" := by simpa using hname
  cases hp : v.payload with
  | named fields span =>
    have hser : serializeVariant v
        = serializeOptSkip v.skip ++ serializeAttrs v.attrs ++
            (serializeVis v.vis ++ .ident v.name v.nameSpan ::
              (.group .brace (serializeFields fields) span ::
                (serializeInit v.disc ++ serializeComma v.comma ++ []))) := by
      rw [serializeVariant, hp, serializePayload]
      simp
    rw [hser]
    rw [enum_variants_loop]
    rw [stream_attrs_serialized_allowed v.skip v.attrs hattrs _
      (headNotPound_vis_ident v.vis v.name v.nameSpan _) out errs]
    simp only []
    rw [stream_vis_serialized v.vis v.name hname2 v.nameSpan _ (out ++ serializeAttrs v.attrs)]
    simp only [stream_ident, TokenTree.span]
    rw [hp] at hpay
    rw [add_default_field_values_serialized fields hpay span errs v.skip.isSome]
    simp only []
    rw [stream_enum_variant_discriminant_and_comma_serialized v.disc hdisc v.comma [] _
      (fun _ => rfl)]
    simp only []
    rw [enum_variants_loop_nil]
    rw [variantError, hp]
    simp [variantOutput, outputPayload, hp, hc, serializeComma, payloadIsNamed]
  | positional ptoks span =>
    have hser : serializeVariant v
        = serializeOptSkip v.skip ++ serializeAttrs v.attrs ++
            (serializeVis v.vis ++ .ident v.name v.nameSpan ::
              (.group .parenthesis ptoks span ::
                (serializeInit v.disc ++ serializeComma v.comma ++ []))) := by
      rw [serializeVariant, hp, serializePayload]
      simp
    rw [hser]
    rw [enum_variants_loop]
    rw [stream_attrs_serialized_allowed v.skip v.attrs hattrs _
      (headNotPound_vis_ident v.vis v.name v.nameSpan _) out errs]
    simp only []
    rw [stream_vis_serialized v.vis v.name hname2 v.nameSpan _ (out ++ serializeAttrs v.attrs)]
    simp only [stream_ident, TokenTree.span]
    rw [stream_enum_variant_discriminant_and_comma_serialized v.disc hdisc v.comma [] _
      (fun _ => rfl)]
    simp only []
    rw [enum_variants_loop_nil]
    rw [disallow_skip_eq, variantError, hp]
    simp [variantOutput, outputPayload, hp, hc, serializeComma, payloadIsNamed]
  | unit =>
    cases hd : v.disc with
    | none =>
      have hser : serializeVariant v
          = serializeOptSkip v.skip ++ serializeAttrs v.attrs ++
              (serializeVis v.vis ++ .ident v.name v.nameSpan :: []) := by
        rw [serializeVariant, hp, serializePayload, hd, serializeInit, hc, serializeComma]
        simp
      rw [hser]
      rw [enum_variants_loop]
      rw [stream_attrs_serialized_allowed v.skip v.attrs hattrs _
        (headNotPound_vis_ident v.vis v.name v.nameSpan _) out errs]
      simp only []
      rw [stream_vis_serialized v.vis v.name hname2 v.nameSpan _ (out ++ serializeAttrs v.attrs)]
      simp only [stream_ident, TokenTree.span]
      rw [disallow_skip_eq, variantError, hp]
      simp [variantOutput, outputPayload, hp, hd, hc, serializeInit, serializeComma,
        payloadIsNamed]
    | some i =>
      obtain ⟨ispc, isp, dtoks⟩ := i
      have hser : serializeVariant v
          = serializeOptSkip v.skip ++ serializeAttrs v.attrs ++
              (serializeVis v.vis ++ .ident v.name v.nameSpan ::
                (.punct '=' ispc isp :: dtoks)) := by
        rw [serializeVariant, hp, serializePayload, hd, serializeInit, hc, serializeComma]
        simp
      rw [hser]
      rw [enum_variants_loop]
      rw [stream_attrs_serialized_allowed v.skip v.attrs hattrs _
        (headNotPound_vis_ident v.vis v.name v.nameSpan _) out errs]
      simp only []
      rw [stream_vis_serialized v.vis v.name hname2 v.nameSpan _ (out ++ serializeAttrs v.attrs)]
      simp only [stream_ident, TokenTree.span]
      simp only [true_or, or_true, if_true]
      have hx : stream_enum_variant_discriminant_and_comma
          (TokenTree.punct '=' ispc isp :: dtoks)
          (out ++ serializeAttrs v.attrs ++ serializeVis v.vis ++
            [TokenTree.ident v.name v.nameSpan])
          = .ok (([] : List TokenTree),
              (out ++ serializeAttrs v.attrs ++ serializeVis v.vis ++
                [TokenTree.ident v.name v.nameSpan]) ++
                (TokenTree.punct '=' ispc isp :: dtoks)) := by
        have h2 := stream_enum_variant_discriminant_and_comma_serialized
          (some (ispc, isp, dtoks)) (by rw [hd] at hdisc; exact hdisc)
          none []
          (out ++ serializeAttrs v.attrs ++ serializeVis v.vis ++
            [TokenTree.ident v.name v.nameSpan])
          (fun _ => rfl)
        simpa [serializeInit, serializeComma] using h2
      rw [hx]
      simp only []
      rw [enum_variants_loop_nil]
      rw [disallow_skip_eq, variantError, hp]
      simp [variantOutput, outputPayload, hp, hd, hc, serializeInit, serializeComma,
        payloadIsNamed]

/-- The enum variant loop on a serialized well-formed variant list rewrites
every variant by `variantOutput` and appends each variant's diagnostics in
source order. -/
theorem enum_variants_loop_serialized (vs : List VariantSpec)
    (hw : wfVariants vs = true) (out errs : List TokenTree) :
    enum_variants_loop (serializeVariants vs) out errs
      = .ok (out ++ vs.flatMap variantOutput, errs ++ vs.flatMap variantError) := by
  revert hw
  induction vs generalizing out errs with
  | nil =>
    intro hw
    simp [serializeVariants, enum_variants_loop_nil]
  | cons v vs ih =>
    intro hw
    cases vs with
    | nil =>
      have hv : wfVariant v = true := by simpa [wfVariants] using hw
      cases hc : v.comma with
      | none =>
        have hs : serializeVariants [v] = serializeVariant v := by simp [serializeVariants]
        rw [hs, enum_variants_loop_last v hv hc]
        simp
      | some c =>
        obtain ⟨cspc, csp⟩ := c
        have hs : serializeVariants [v] = serializeVariant v ++ [] := by
          simp [serializeVariants]
        rw [hs, enum_variants_loop_step v hv cspc csp hc, enum_variants_loop_nil]
        simp
    | cons v2 vs2 =>
      have hw2 : wfVariant v = true ∧ v.comma.isSome = true ∧ wfVariants (v2 :: vs2) = true := by
        simpa [wfVariants, Bool.and_eq_true, and_assoc] using hw
      obtain ⟨hv, hcs, hwtail⟩ := hw2
      obtain ⟨⟨cspc, csp⟩, hc⟩ := Option.isSome_iff_exists.mp hcs
      have hs : serializeVariants (v :: v2 :: vs2)
          = serializeVariant v ++ serializeVariants (v2 :: vs2) := by
        simp [serializeVariants]
      rw [hs, enum_variants_loop_step v hv cspc csp hc, ih _ _ hwtail]
      simp

/-! ## Whole declarations -/

/-- A token that is not a brace-delimited group (allowed inside the
passthrough generic-parameter region). -/
def notBraceGroup : TokenTree → Bool
  | .group .brace _ _ => false
  | _ => true

/-- A serialized struct declaration. -/
structure StructSpec where
  containerSkip : Option SkipSpec
  attrs : List Attr
  vis : Option VisSpec
  kwSpan : Nat
  name : String
  nameSpan : Nat
  generics : List TokenTree
  bodySpan : Nat
  fields : List FieldSpec
deriving DecidableEq

/-- The raw tokens of a struct declaration. -/
def serializeStruct (s : StructSpec) : List TokenTree :=
  serializeOptSkip s.containerSkip ++ serializeAttrs s.attrs ++ serializeVis s.vis ++
    [.ident "struct" s.kwSpan, .ident s.name s.nameSpan] ++ s.generics ++
    [.group .brace (serializeFields s.fields) s.bodySpan]

/-- Well-formedness of a struct declaration. -/
def wfStruct (s : StructSpec) : Bool :=
  s.attrs.all Attr.plain && s.generics.all notBraceGroup && wfFields s.fields

/-- The container placement diagnostic contributed by a skip annotation on
the declaration itself. -/
def containerSkipError : Option SkipSpec → List TokenTree
  | none => []
  | some k =>
    (CompileError.mk k.skipSpan "`#[auto_default(skip)]` is not allowed on container").toTokens

/-- The rewriter's output for a struct declaration. -/
def structOutput (s : StructSpec) : List TokenTree :=
  serializeAttrs s.attrs ++ serializeVis s.vis ++
    [.ident "struct" s.kwSpan, .ident s.name s.nameSpan] ++ s.generics ++
    [.group .brace (s.fields.flatMap (outputField false)) s.bodySpan] ++
    containerSkipError s.containerSkip

/-- A serialized enum declaration. -/
structure EnumSpec where
  containerSkip : Option SkipSpec
  attrs : List Attr
  vis : Option VisSpec
  kwSpan : Nat
  name : String
  nameSpan : Nat
  generics : List TokenTree
  bodySpan : Nat
  variants : List VariantSpec
deriving DecidableEq

/-- The raw tokens of an enum declaration. -/
def serializeEnum (e : EnumSpec) : List TokenTree :=
  serializeOptSkip e.containerSkip ++ serializeAttrs e.attrs ++ serializeVis e.vis ++
    [.ident "enum" e.kwSpan, .ident e.name e.nameSpan] ++ e.generics ++
    [.group .brace (serializeVariants e.variants) e.bodySpan]

/-- Well-formedness of an enum declaration. -/
def wfEnum (e : EnumSpec) : Bool :=
  e.attrs.all Attr.plain && e.generics.all notBraceGroup && wfVariants e.variants

/-- The rewriter's output for an enum declaration: the rewritten declaration,
then the container diagnostic (if any), then the per-variant diagnostics in
source order. -/
def enumOutput (e : EnumSpec) : List TokenTree :=
  serializeAttrs e.attrs ++ serializeVis e.vis ++
    [.ident "enum" e.kwSpan, .ident e.name e.nameSpan] ++ e.generics ++
    [.group .brace (e.variants.flatMap variantOutput) e.bodySpan] ++
    containerSkipError e.containerSkip ++ e.variants.flatMap variantError

/-- `find_body` takes the first brace-delimited group as the body, copying
everything before it verbatim. -/
theorem find_body_serialized (pre : List TokenTree) (hp : pre.all notBraceGroup = true)
    (g : List TokenTree) (gs : Nat) (rest sink : List TokenTree) :
    find_body (pre ++ .group .brace g gs :: rest) sink = (some (g, gs, rest), sink ++ pre) := by
  induction pre generalizing sink with
  | nil => rw [List.nil_append, find_body]; simp
  | cons t pre ih =>
    simp only [List.all_cons, Bool.and_eq_true] at hp
    cases t with
    | group d gtoks gsp =>
      cases d with
      | brace => simp [notBraceGroup] at hp
      | parenthesis =>
        rw [List.cons_append, find_body]
        · rw [ih hp.2]; simp
        · simp
      | bracket =>
        rw [List.cons_append, find_body]
        · rw [ih hp.2]; simp
        · simp
      | invisible =>
        rw [List.cons_append, find_body]
        · rw [ih hp.2]; simp
        · simp
    | ident n sp =>
      rw [List.cons_append, find_body]
      · rw [ih hp.2]; simp
      · simp
    | punct c pspc pspan =>
      rw [List.cons_append, find_body]
      · rw [ih hp.2]; simp
      · simp
    | lit te sp =>
      rw [List.cons_append, find_body]
      · rw [ih hp.2]; simp
      · simp

theorem containerSkipError_eq (skip : Option SkipSpec) :
    (match skip with
      | some k =>
        if !false then
          (CompileError.mk k.skipSpan
            "`#[auto_default(skip)]` is not allowed on container").toTokens
        else []
      | none => ([] : List TokenTree))
      = containerSkipError skip := by
  cases skip <;> simp [containerSkipError]

/-- `auto_default` on a serialized well-formed struct declaration. -/
theorem auto_default_struct (s : StructSpec) (hw : wfStruct s = true) :
    auto_default [] (serializeStruct s) = .ok (structOutput s) := by
  simp only [wfStruct, Bool.and_eq_true] at hw
  obtain ⟨⟨hattrs, hgen⟩, hfields⟩ := hw
  have hser : serializeStruct s
      = serializeOptSkip s.containerSkip ++ serializeAttrs s.attrs ++
          (serializeVis s.vis ++ .ident "struct" s.kwSpan ::
            (.ident s.name s.nameSpan ::
              (s.generics ++ .group .brace (serializeFields s.fields) s.bodySpan :: []))) := by
    rw [serializeStruct]
    simp
  rw [auto_default]
  simp only []
  rw [hser, stream_attrs_serialized s.containerSkip s.attrs hattrs _
    (headNotPound_vis_ident s.vis "struct" s.kwSpan _) [] [] false]
  simp only [List.nil_append]
  rw [stream_vis_serialized s.vis "struct" (by decide) s.kwSpan _ (serializeAttrs s.attrs)]
  simp only [reduceIte]
  rw [rewrite_item]
  simp only [stream_ident, TokenTree.span]
  rw [find_body_serialized s.generics hgen _ _ []]
  simp only []
  rw [containerSkipError_eq]
  rw [add_default_field_values_serialized s.fields hfields s.bodySpan _ false]
  rw [structOutput]
  simp

/-- `auto_default` on a serialized well-formed enum declaration. -/
theorem auto_default_enum (e : EnumSpec) (hw : wfEnum e = true) :
    auto_default [] (serializeEnum e) = .ok (enumOutput e) := by
  simp only [wfEnum, Bool.and_eq_true] at hw
  obtain ⟨⟨hattrs, hgen⟩, hvariants⟩ := hw
  have hser : serializeEnum e
      = serializeOptSkip e.containerSkip ++ serializeAttrs e.attrs ++
          (serializeVis e.vis ++ .ident "enum" e.kwSpan ::
            (.ident e.name e.nameSpan ::
              (e.generics ++ .group .brace (serializeVariants e.variants) e.bodySpan :: []))) := by
    rw [serializeEnum]
    simp
  rw [auto_default]
  simp only []
  rw [hser, stream_attrs_serialized e.containerSkip e.attrs hattrs _
    (headNotPound_vis_ident e.vis "enum" e.kwSpan _) [] [] false]
  simp only [List.nil_append]
  rw [stream_vis_serialized e.vis "enum" (by decide) e.kwSpan _ (serializeAttrs e.attrs)]
  simp only [reduceIte, reduceCtorEq]
  rw [containerSkipError_eq]
  rw [if_neg (show ¬ ("enum" : String) = "struct" by decide)]
  rw [rewrite_item.eq_def]
  simp only [stream_ident, TokenTree.span]
  rw [find_body_serialized e.generics hgen _ _ []]
  simp only []
  rw [enum_variants_loop_serialized e.variants hvariants []]
  rw [enumOutput]
  simp

/-! ## Last helpers for the claim theorems -/

/-- The usage diagnostic produced for a non-empty invocation-argument stream
(matches the `args` handling at the top of `auto_default`). -/
def argErrors : List TokenTree → List TokenTree
  | [] => []
  | t :: _ => (CompileError.mk t.span "no arguments expected").toTokens

/-- Counts top-level identifier tokens with the given name (used to count
embedded `compile_error` fragments). -/
def countIdent (name : String) : List TokenTree → Nat
  | [] => 0
  | .ident n _ :: rest => (if n = name then 1 else 0) + countIdent name rest
  | _ :: rest => countIdent name rest

/-- A source head that does not start a visibility qualifier. -/
def headNotPub : List TokenTree → Bool
  | .ident "pub" _ :: _ => false
  | _ => true

theorem stream_vis_stop (source sink : List TokenTree) (h : headNotPub source = true) :
    stream_vis source sink = (source, sink) := by
  cases source with
  | nil => rfl
  | cons t rest =>
    cases t with
    | ident n sp =>
      have h2 : ¬ n = "pub" := by
        intro he
        rw [he] at h
        simp [headNotPub] at h
      rw [stream_vis.eq_def]
      simp [h2]
    | punct c pspc pspan => rfl
    | lit te sp => rfl
    | group d g sp => rfl

/-- `find_body` reaches end of input when no brace group exists: all tokens
were copied to the sink and no body was found. -/
theorem find_body_none (pre : List TokenTree) (hp : pre.all notBraceGroup = true)
    (sink : List TokenTree) :
    find_body pre sink = (none, sink ++ pre) := by
  induction pre generalizing sink with
  | nil => rw [find_body]; simp
  | cons t pre ih =>
    simp only [List.all_cons, Bool.and_eq_true] at hp
    cases t with
    | group d gtoks gsp =>
      cases d with
      | brace => simp [notBraceGroup] at hp
      | parenthesis =>
        rw [find_body]
        · rw [ih hp.2]; simp
        · simp
      | bracket =>
        rw [find_body]
        · rw [ih hp.2]; simp
        · simp
      | invisible =>
        rw [find_body]
        · rw [ih hp.2]; simp
        · simp
    | ident n sp =>
      rw [find_body]
      · rw [ih hp.2]; simp
      · simp
    | punct c pspc pspan =>
      rw [find_body]
      · rw [ih hp.2]; simp
      · simp
    | lit te sp =>
      rw [find_body]
      · rw [ih hp.2]; simp
      · simp

/-- A run of further skip annotations after a first one: each contributes one
duplicate diagnostic (carrying its own `skip` span), the accumulator keeps
the first span. -/
theorem stream_attrs_loop_dups (ks : List SkipSpec) (sink errs : List TokenTree) (j : Nat) :
    stream_attrs_loop (ks.flatMap SkipSpec.toTokens) sink errs (some j)
      = .ok (some j, [], sink,
          errs ++ ks.flatMap (fun k2 =>
            (CompileError.mk k2.skipSpan "duplicate `#[auto_default(skip)]`").toTokens)) := by
  induction ks generalizing errs with
  | nil =>
    rw [List.flatMap_nil, stream_attrs_loop_stop [] sink errs (some j) rfl]
    simp
  | cons k2 ks ih =>
    rw [List.flatMap_cons, stream_attrs_loop_skip_dup k2 j]
    rw [ih]
    simp

/-- A token which, at the keyword position, triggers the fatal
"expected a `struct` or an `enum`" diagnostic: not an attribute opener, not a
visibility qualifier, not `struct`/`enum`. -/
def fatalKwToken : TokenTree → Bool
  | .ident name _ => !(name == "struct" || name == "enum" || name == "pub")
  | .punct c _ _ => !(c == '#')
  | _ => true

/-! ## Claims -/

/-- C1: For every named field that has no explicit initializer and whose
effective skip flag is false, the rewriter injects exactly one canonical
default-initializer fragment `= ::core::default::Default::default()`
immediately before the field's terminating separator: the first conjunct
shows the rewriter's output is exactly one `outputField` block per field;
the second and third show that for an eligible field that block is the
field's own tokens with the single `default` fragment placed immediately
before the comma, or at the end of the list for a final field with no
trailing comma. -/
theorem C1_default_injection :
    (∀ (fs : List FieldSpec) (span : Nat) (errs : List TokenTree) (vskip : Bool),
        wfFields fs = true →
        add_default_field_values (serializeFields fs) span errs vskip
          = .ok (.group .brace (fs.flatMap (outputField vskip)) span, errs)) ∧
    (∀ (f : FieldSpec) (vskip : Bool) (cspc : Spacing) (csp : Nat),
        f.init = none → (f.skip.isSome || vskip) = false → f.comma = some (cspc, csp) →
        outputField vskip f
          = serializeAttrs f.attrs ++ serializeVis f.vis ++
              [.ident f.name f.nameSpan, .punct ':' f.colonSpc f.colonSpan] ++ f.ty ++
              default f.nameSpan ++ [.punct ',' cspc csp]) ∧
    (∀ (f : FieldSpec) (vskip : Bool),
        f.init = none → (f.skip.isSome || vskip) = false → f.comma = none →
        outputField vskip f
          = serializeAttrs f.attrs ++ serializeVis f.vis ++
              [.ident f.name f.nameSpan, .punct ':' f.colonSpc f.colonSpan] ++ f.ty ++
              default f.nameSpan) := by
  refine ⟨fun fs span errs vskip hw => add_default_field_values_serialized fs hw span errs vskip,
    ?_, ?_⟩
  · intro f vskip cspc csp hi hsk hc
    simp [outputField, hi, hsk, hc, serializeComma]
  · intro f vskip hi hsk hc
    simp [outputField, hi, hsk, hc, serializeComma]

/-- Witness for C1 at the field list `age: u8,` with no skip anywhere. -/
theorem C1_default_injection_witness :
    add_default_field_values
        (serializeFields [⟨none, [], none, "age", 5, .alone, 6, [.ident "u8" 7], none,
          some (.alone, 8)⟩]) 9 [] false
      = .ok (.group .brace
          ([⟨none, [], none, "age", 5, .alone, 6, [.ident "u8" 7], none,
            some (.alone, 8)⟩].flatMap (outputField false)) 9, []) ∧
    outputField false
        ⟨none, [], none, "age", 5, .alone, 6, [.ident "u8" 7], none, some (.alone, 8)⟩
      = serializeAttrs [] ++ serializeVis none ++
          [.ident "age" 5, .punct ':' .alone 6] ++ [.ident "u8" 7] ++
          default 5 ++ [.punct ',' .alone 8] :=
  ⟨C1_default_injection.1 _ 9 [] false (by decide),
   C1_default_injection.2.1 _ false .alone 8 rfl rfl rfl⟩

/-- C2 counterexample: a field that carries both a skip annotation and an
explicit initializer.  The claim says the output tokens for such a field are
identical to its input tokens; in fact the rewriter removes the valid skip
annotation, so the output differs from the input. -/
theorem C2_counterexample :
    add_default_field_values
        [ .punct '#' .alone 1,
          .group .bracket
            [.ident "auto_default" 2, .group .parenthesis [.ident "skip" 3] 4] 5,
          .ident "is_admin" 6, .punct ':' .alone 7, .ident "bool" 8,
          .punct '=' .alone 9, .ident "false" 10 ] 0 [] false
      = .ok (.group .brace
          [ .ident "is_admin" 6, .punct ':' .alone 7, .ident "bool" 8,
            .punct '=' .alone 9, .ident "false" 10 ] 0, [])
    ∧ ([ .ident "is_admin" 6, .punct ':' .alone 7, .ident "bool" 8,
         .punct '=' .alone 9, .ident "false" 10 ] : List TokenTree)
      ≠ [ .punct '#' .alone 1,
          .group .bracket
            [.ident "auto_default" 2, .group .parenthesis [.ident "skip" 3] 4] 5,
          .ident "is_admin" 6, .punct ':' .alone 7, .ident "bool" 8,
          .punct '=' .alone 9, .ident "false" 10 ] := by
  refine ⟨?_, by decide⟩
  exact add_default_field_values_serialized
    [⟨some ⟨.alone, 1, 2, 4, 3, 5⟩, [], none, "is_admin", 6, .alone, 7, [.ident "bool" 8],
      some (.alone, 9, [.ident "false" 10]), none⟩] (by decide) 0 [] false

/-- C2 (amended): for every well-formed field that carries an explicit
initializer, the rewriter's output for the field is its input tokens with any
valid skip annotation removed — the initializer is copied verbatim and
nothing is injected, regardless of the effective skip flag. -/
theorem C2_initializer_preserved (f : FieldSpec) (span : Nat) (errs : List TokenTree)
    (vskip : Bool) (hf : wfField f = true) (hi : f.init.isSome = true) :
    add_default_field_values (serializeField f) span errs vskip
      = .ok (.group .brace (serializeField { f with skip := none }) span, errs) := by
  have hs : serializeFields [f] = serializeField f := by simp [serializeFields]
  have h := add_default_field_values_serialized [f] (by simpa [wfFields] using hf)
    span errs vskip
  rw [hs] at h
  rw [h]
  obtain ⟨⟨ispc, isp, toks⟩, hi2⟩ := Option.isSome_iff_exists.mp hi
  simp [outputField, serializeField, serializeOptSkip, serializeInit, hi2]

/-- Witness for C2 (amended) at `#[auto_default(skip)] flag: bool = false,`. -/
theorem C2_initializer_preserved_witness :
    add_default_field_values
        (serializeField ⟨some ⟨.alone, 1, 2, 4, 3, 5⟩, [], none, "flag", 6, .alone, 7,
          [.ident "bool" 8], some (.alone, 9, [.ident "false" 10]), some (.alone, 11)⟩)
        0 [] true
      = .ok (.group .brace
          (serializeField
            ({ skip := none, attrs := [], vis := none, name := "flag", nameSpan := 6,
               colonSpc := .alone, colonSpan := 7, ty := [.ident "bool" 8],
               init := some (.alone, 9, [.ident "false" 10]),
               comma := some (.alone, 11) } : FieldSpec)) 0, []) :=
  C2_initializer_preserved
    ⟨some ⟨.alone, 1, 2, 4, 3, 5⟩, [], none, "flag", 6, .alone, 7,
      [.ident "bool" 8], some (.alone, 9, [.ident "false" 10]), some (.alone, 11)⟩
    0 [] true (by decide) rfl

/-- C3: a field's effective skip flag is the OR of its own annotation and the
enclosing variant's (first conjunct: the injection condition of a single
field rewritten under a variant flag `vskip` is exactly
`f.skip.isSome || vskip`); a variant's skip never leaks to sibling variants
(second conjunct: the whole enum output is one `variantOutput` block per
variant, and `variantOutput`/`outputPayload` pass only the variant's own flag
to its own fields); there is no per-field way to force the flag back to
false under a skipped variant (third conjunct: the OR with a true variant
flag is true whatever the field annotation). -/
theorem C3_skip_or_semantics :
    (∀ (f : FieldSpec) (span : Nat) (errs : List TokenTree) (vskip : Bool),
        wfField f = true → f.init = none → f.comma = none →
        add_default_field_values (serializeField f) span errs vskip
          = .ok (.group .brace
              (serializeAttrs f.attrs ++ serializeVis f.vis ++
                [.ident f.name f.nameSpan, .punct ':' f.colonSpc f.colonSpan] ++ f.ty ++
                (if f.skip.isSome || vskip then [] else default f.nameSpan)) span, errs)) ∧
    (∀ e : EnumSpec, wfEnum e = true →
        auto_default [] (serializeEnum e) = .ok (enumOutput e)) ∧
    (∀ (f : FieldSpec), (f.skip.isSome || true) = true) := by
  refine ⟨?_, auto_default_enum, fun f => Bool.or_true _⟩
  intro f span errs vskip hf hi hc
  have hs : serializeFields [f] = serializeField f := by simp [serializeFields]
  have h := add_default_field_values_serialized [f] (by simpa [wfFields] using hf)
    span errs vskip
  rw [hs] at h
  rw [h]
  simp [outputField, hi, hc, serializeComma]

/-- Witness for C3: a field under a skipped variant gets no injection even
without its own annotation, and a two-variant enum in which only the first
variant is skipped still has its second variant's field injected. -/
theorem C3_skip_or_semantics_witness :
    add_default_field_values
        (serializeField ⟨none, [], none, "x", 5, .alone, 6, [.ident "u8" 7], none, none⟩)
        0 [] true
      = .ok (.group .brace
          (serializeAttrs [] ++ serializeVis none ++ [.ident "x" 5, .punct ':' .alone 6] ++
            [.ident "u8" 7] ++ (if (Option.isSome (none : Option SkipSpec) || true) then []
              else default 5)) 0, []) ∧
    auto_default []
        (serializeEnum ⟨none, [], none, 1, "E", 2, [], 3,
          [ ⟨some ⟨.alone, 10, 11, 13, 12, 14⟩, [], none, "A", 30,
              .named [⟨none, [], none, "x", 33, .alone, 34, [.ident "u8" 35], none, none⟩] 36,
              none, some (.alone, 37)⟩,
            ⟨none, [], none, "B", 40,
              .named [⟨none, [], none, "y", 43, .alone, 44, [.ident "u8" 45], none, none⟩] 46,
              none, none⟩ ]⟩)
      = .ok (enumOutput ⟨none, [], none, 1, "E", 2, [], 3,
          [ ⟨some ⟨.alone, 10, 11, 13, 12, 14⟩, [], none, "A", 30,
              .named [⟨none, [], none, "x", 33, .alone, 34, [.ident "u8" 35], none, none⟩] 36,
              none, some (.alone, 37)⟩,
            ⟨none, [], none, "B", 40,
              .named [⟨none, [], none, "y", 43, .alone, 44, [.ident "u8" 45], none, none⟩] 46,
              none, none⟩ ]⟩) :=
  ⟨C3_skip_or_semantics.1 _ 0 [] true (by decide) rfl rfl,
   C3_skip_or_semantics.2.1 _ (by decide)⟩

/-- C7: for a context carrying `1 + ks.length` valid skip annotations, the
skip effect is still `true` (the first occurrence's effect applies) and every
occurrence beyond the first contributes exactly one duplicate-annotation
diagnostic, carrying that occurrence's own `skip` span, in order. -/
theorem C7_duplicate_skip (k : SkipSpec) (ks : List SkipSpec)
    (sink errs : List TokenTree) :
    stream_attrs (k.toTokens ++ ks.flatMap SkipSpec.toTokens) sink errs true
      = .ok (true, [], sink,
          errs ++ ks.flatMap (fun k2 =>
            (CompileError.mk k2.skipSpan "duplicate `#[auto_default(skip)]`").toTokens)) := by
  rw [stream_attrs]
  rw [stream_attrs_loop_skip_first k _ sink errs]
  rw [stream_attrs_loop_dups ks sink errs k.skipSpan]
  simp

/-- C9: the rewriter is total (never panics) on every serialized well-formed
struct or enum declaration, but panics on some raw token sequences outside
that space: an item whose last token is the `struct` keyword (the `.expect`
after the keyword), and a `#` punct not followed by a bracketed group (the
`unreachable!()` in `stream_attrs`). -/
theorem C9_panic_behavior :
    (∀ s : StructSpec, wfStruct s = true →
        (auto_default [] (serializeStruct s)).isOk = true) ∧
    (∀ e : EnumSpec, wfEnum e = true →
        (auto_default [] (serializeEnum e)).isOk = true) ∧
    auto_default [] [.ident "struct" 0]
      = .error "`struct` or `enum` keyword is always followed by an identifier" ∧
    auto_default [] [.punct '#' .alone 0, .ident "x" 1]
      = .error "internal error: entered unreachable code" := by
  refine ⟨?_, ?_, rfl, rfl⟩
  · intro s hw
    rw [auto_default_struct s hw]
    rfl
  · intro e hw
    rw [auto_default_enum e hw]
    rfl

/-- Witness for C9: a concrete one-field struct and a one-variant enum are
rewritten without a panic. -/
theorem C9_panic_behavior_witness :
    (auto_default [] (serializeStruct ⟨none, [], none, 1, "S", 2, [],
        3, [⟨none, [], none, "x", 5, .alone, 6, [.ident "u8" 7], none, none⟩]⟩)).isOk = true ∧
    (auto_default [] (serializeEnum ⟨none, [], none, 1, "E", 2, [], 3,
        [⟨none, [], none, "A", 30, .unit, none, none⟩]⟩)).isOk = true :=
  ⟨C9_panic_behavior.1 _ (by decide), C9_panic_behavior.2.1 _ (by decide)⟩

/-- C10: the header parser takes the first brace-delimited group after the
item name as the declaration body, copying every earlier token verbatim to
the output; in particular a brace group occurring inside the generic
parameters (e.g. a brace-delimited const-generic default) is taken as the
body. -/
theorem C10_first_brace_is_body (pre : List TokenTree)
    (hp : pre.all notBraceGroup = true) (g : List TokenTree) (gs : Nat)
    (rest sink : List TokenTree) :
    find_body (pre ++ .group .brace g gs :: rest) sink
      = (some (g, gs, rest), sink ++ pre) :=
  find_body_serialized pre hp g gs rest sink

/-- Witness for C10: in `< N : usize = {3} > { }` the const-generic default
group `{3}` is taken as the body and the real body is left in the rest. -/
theorem C10_first_brace_is_body_witness :
    find_body
        [ .punct '<' .alone 1, .ident "N" 2, .punct ':' .alone 3, .ident "usize" 4,
          .punct '=' .alone 5, .group .brace [.lit "3" 6] 7, .punct '>' .alone 8,
          .group .brace [] 9 ] []
      = (some ([.lit "3" 6], 7, [.punct '>' .alone 8, .group .brace [] 9]),
         [ .punct '<' .alone 1, .ident "N" 2, .punct ':' .alone 3, .ident "usize" 4,
           .punct '=' .alone 5 ]) :=
  C10_first_brace_is_body
    [ .punct '<' .alone 1, .ident "N" 2, .punct ':' .alone 3, .ident "usize" 4,
      .punct '=' .alone 5 ] (by decide) [.lit "3" 6] 7
    [.punct '>' .alone 8, .group .brace [] 9] []

/-- C4 counterexample: the malformed annotation `#[auto_default(foo)]` emits
one syntax diagnostic but is *not* dropped entirely from the rewritten
output: the `#` and the rebuilt (now empty) bracket group are forwarded, so
`#[]` appears in the output. -/
theorem C4_counterexample :
    stream_attrs
        [ .punct '#' .alone 1,
          .group .bracket
            [.ident "auto_default" 2, .group .parenthesis [.ident "foo" 3] 4] 5,
          .ident "x" 6 ] [] [] true
      = .ok (false, [.ident "x" 6],
          [.punct '#' .alone 1, .group .bracket [] 5],
          (CompileError.mk 3 "expected `skip`").toTokens)
    ∧ ([.punct '#' .alone 1, .group .bracket [] 5] : List TokenTree) ≠ [] :=
  ⟨rfl, by decide⟩

/-- C4 (amended): every annotation whose head identifier is `auto_default`
but which is not recognized as exactly `(skip)` emits one syntax diagnostic
and is not treated as a skip (first conjunct); the annotation is neither kept
intact nor dropped entirely: the `#` and a bracket group rebuilt from the
unconsumed tokens are forwarded (second conjunct); and extra tokens *after* a
valid `(skip)` group are silently discarded while the annotation still
counts as a skip (third conjunct). -/
theorem C4_malformed_skip :
    (∀ (errs ar er : List TokenTree) (s : Nat) (rest0 : List TokenTree),
        is_skip_attribute (.ident "auto_default" s :: rest0) errs = (none, ar, er) →
        ∃ e : CompileError, er = errs ++ e.toTokens) ∧
    (∀ (d : Delim) (toks : List TokenTree) (aspan : Nat) (pspc : Spacing) (pspan : Nat)
        (rest sink errors ar er : List TokenTree) (isk : Option Nat),
        is_skip_attribute toks errors = (none, ar, er) →
        stream_attrs_loop
            (.punct '#' pspc pspan :: .group d toks aspan :: rest) sink errors isk
          = stream_attrs_loop rest
              (sink ++ [.punct '#' pspc pspan, .group d ar aspan]) er isk) ∧
    (∀ (s1 s2 s3 : Nat) (extra errs : List TokenTree),
        is_skip_attribute
            (.ident "auto_default" s1 ::
              .group .parenthesis [.ident "skip" s2] s3 :: extra) errs
          = (some s2, extra, errs)) := by
  refine ⟨?_, ?_, ?_⟩
  · intro errs ar er s rest0 h
    cases rest0 with
    | nil =>
      rw [is_skip_attribute.eq_def] at h
      simp at h
      exact ⟨⟨s, "expected `(skip)` after this"⟩, h.2.symm⟩
    | cons t rest2 =>
      cases t with
      | ident n sp =>
        rw [is_skip_attribute.eq_def] at h
        simp at h
        exact ⟨⟨sp, "expected `(skip)`"⟩, h.2.symm⟩
      | punct c pspc pspan =>
        rw [is_skip_attribute.eq_def] at h
        simp at h
        exact ⟨⟨pspan, "expected `(skip)`"⟩, h.2.symm⟩
      | lit te sp =>
        rw [is_skip_attribute.eq_def] at h
        simp at h
        exact ⟨⟨sp, "expected `(skip)`"⟩, h.2.symm⟩
      | group d gtoks gsp =>
        cases d with
        | brace =>
          rw [is_skip_attribute.eq_def] at h
          simp at h
          exact ⟨⟨gsp, "expected `(skip)`"⟩, h.2.symm⟩
        | bracket =>
          rw [is_skip_attribute.eq_def] at h
          simp at h
          exact ⟨⟨gsp, "expected `(skip)`"⟩, h.2.symm⟩
        | invisible =>
          rw [is_skip_attribute.eq_def] at h
          simp at h
          exact ⟨⟨gsp, "expected `(skip)`"⟩, h.2.symm⟩
        | parenthesis =>
          cases gtoks with
          | nil =>
            rw [is_skip_attribute.eq_def] at h
            simp at h
            exact ⟨⟨gsp, "expected `(skip)`, found `()`"⟩, h.2.symm⟩
          | cons ti ir =>
            cases ti with
            | ident sn sp =>
              by_cases hsn : sn = "skip"
              · cases ir with
                | nil =>
                  rw [is_skip_attribute.eq_def] at h
                  simp [hsn] at h
                | cons t2 ir2 =>
                  rw [is_skip_attribute.eq_def] at h
                  simp [hsn] at h
                  exact ⟨⟨t2.span, "unexpected token"⟩, h.2.symm⟩
              · rw [is_skip_attribute.eq_def] at h
                simp [hsn] at h
                exact ⟨⟨sp, "expected `skip`"⟩, h.2.symm⟩
            | punct c2 p2 sp2 =>
              rw [is_skip_attribute.eq_def] at h
              simp at h
              exact ⟨⟨sp2, "expected `skip`"⟩, h.2.symm⟩
            | lit te2 sp2 =>
              rw [is_skip_attribute.eq_def] at h
              simp at h
              exact ⟨⟨sp2, "expected `skip`"⟩, h.2.symm⟩
            | group d2 g2 sp2 =>
              rw [is_skip_attribute.eq_def] at h
              simp at h
              exact ⟨⟨sp2, "expected `skip`"⟩, h.2.symm⟩
  · intro d toks aspan pspc pspan rest sink errors ar er isk h
    rw [stream_attrs_loop.eq_def]
    simp only [reduceIte]
    rw [h]
  · intro s1 s2 s3 extra errs
    rw [is_skip_attribute.eq_def]
    simp

/-- Witness for C4 at `#[auto_default(foo)]`, `#[auto_default[skip]]`-shaped
shells, and `#[auto_default(skip)(extra)]`. -/
theorem C4_malformed_skip_witness :
    (∃ e : CompileError,
        ( is_skip_attribute
            [.ident "auto_default" 2, .group .parenthesis [.ident "foo" 3] 4] []).2.2
          = [] ++ e.toTokens) ∧
    stream_attrs_loop
        [ .punct '#' .alone 1,
          .group .bracket
            [.ident "auto_default" 2, .group .parenthesis [.ident "foo" 3] 4] 5,
          .ident "x" 6 ] [] [] none
      = stream_attrs_loop [.ident "x" 6]
          ([] ++ [.punct '#' .alone 1, .group .bracket [] 5])
          ((CompileError.mk 3 "expected `skip`").toTokens) none ∧
    is_skip_attribute
        [ .ident "auto_default" 11, .group .parenthesis [.ident "skip" 12] 13,
          .group .parenthesis [.ident "extra" 14] 15 ] []
      = (some 12, [.group .parenthesis [.ident "extra" 14] 15], []) :=
  ⟨C4_malformed_skip.1 [] [] ((CompileError.mk 3 "expected `skip`").toTokens) 2
      [.group .parenthesis [.ident "foo" 3] 4] rfl,
   C4_malformed_skip.2.1 .bracket
      [.ident "auto_default" 2, .group .parenthesis [.ident "foo" 3] 4] 5 .alone 1
      [.ident "x" 6] [] [] []
      ((CompileError.mk 3 "expected `skip`").toTokens) none rfl,
   C4_malformed_skip.2.2 11 12 13 [.group .parenthesis [.ident "extra" 14] 15] []⟩

theorem fatal_headNotPound (t : TokenTree) (rest : List TokenTree)
    (h : fatalKwToken t = true) : headNotPound (t :: rest) = true := by
  cases t with
  | punct c pspc pspan => simpa [fatalKwToken, headNotPound] using h
  | ident n sp => rfl
  | lit te sp => rfl
  | group d g sp => rfl

theorem fatal_headNotPub (t : TokenTree) (rest : List TokenTree)
    (h : fatalKwToken t = true) : headNotPub (t :: rest) = true := by
  cases t with
  | ident n sp =>
    have h2 : ¬ n = "pub" := by
      intro he
      rw [he] at h
      simp [fatalKwToken] at h
    rw [headNotPub.eq_def]
    simp [h2]
  | punct c pspc pspan => rfl
  | lit te sp => rfl
  | group d g sp => rfl

/-- C6 counterexample: a fatal shape error (item is not a struct/enum) with a
non-empty invocation-argument stream.  The output is the usage diagnostic
followed by the fatal diagnostic — two `compile_error` fragments, not a
single diagnostic. -/
theorem C6_counterexample :
    auto_default [.lit "z" 99] [.ident "fn" 1, .ident "f" 2]
      = .ok ((CompileError.mk 99 "no arguments expected").toTokens ++
          (CompileError.mk 1 "expected a `struct` or an `enum`").toTokens)
    ∧ countIdent "compile_error"
        ((CompileError.mk 99 "no arguments expected").toTokens ++
          (CompileError.mk 1 "expected a `struct` or an `enum`").toTokens) = 2 :=
  ⟨rfl, by decide⟩

/-- C6 (amended): on a fatal shape error (item is not a struct/enum, or has
no brace-delimited body) the rewriter short-circuits: its output consists
solely of diagnostics — the single fatal diagnostic, preceded by any
diagnostics already accumulated (a usage error for non-empty arguments, a
container-skip placement error) — and contains no declaration output. -/
theorem C6_fatal_short_circuit :
    (∀ (args : List TokenTree) (skip : Option SkipSpec) (attrs : List Attr)
        (t : TokenTree) (rest : List TokenTree),
        attrs.all Attr.plain = true → fatalKwToken t = true →
        auto_default args (serializeOptSkip skip ++ serializeAttrs attrs ++ t :: rest)
          = .ok (argErrors args ++ containerSkipError skip ++
              (CompileError.mk t.span "expected a `struct` or an `enum`").toTokens)) ∧
    (∀ (args : List TokenTree) (skip : Option SkipSpec) (attrs : List Attr)
        (kwSpan : Nat) (name : String) (nameSpan : Nat) (gens : List TokenTree),
        attrs.all Attr.plain = true → gens.all notBraceGroup = true →
        auto_default args
            (serializeOptSkip skip ++ serializeAttrs attrs ++
              .ident "struct" kwSpan :: .ident name nameSpan :: gens)
          = .ok (argErrors args ++ containerSkipError skip ++
              (CompileError.mk nameSpan "expected struct with named fields").toTokens)) := by
  constructor
  · intro args skip attrs t rest ha ht
    rw [auto_default.eq_def]
    simp only []
    have hme : (match args with
        | [] => ([] : List TokenTree)
        | tt :: _ => (CompileError.mk tt.span "no arguments expected").toTokens)
        = argErrors args := by
      cases args <;> rfl
    rw [hme]
    rw [stream_attrs_serialized skip attrs ha (t :: rest)
      (fatal_headNotPound t rest ht) [] (argErrors args) false]
    simp only [List.nil_append]
    rw [containerSkipError_eq]
    rw [stream_vis_stop (t :: rest) _ (fatal_headNotPub t rest ht)]
    cases t with
    | ident n sp =>
      have h2 : ¬ n = "struct" ∧ ¬ n = "enum" := by
        constructor <;> intro he <;> rw [he] at ht <;> simp [fatalKwToken] at ht
      simp [h2.1, h2.2, TokenTree.span]
    | punct c pspc pspan => simp [TokenTree.span]
    | lit te sp => simp [TokenTree.span]
    | group d g sp => simp [TokenTree.span]
  · intro args skip attrs kwSpan name nameSpan gens ha hg
    rw [auto_default.eq_def]
    simp only []
    have hme : (match args with
        | [] => ([] : List TokenTree)
        | tt :: _ => (CompileError.mk tt.span "no arguments expected").toTokens)
        = argErrors args := by
      cases args <;> rfl
    rw [hme]
    rw [stream_attrs_serialized skip attrs ha
      (.ident "struct" kwSpan :: .ident name nameSpan :: gens) rfl [] (argErrors args) false]
    simp only [List.nil_append]
    rw [containerSkipError_eq]
    rw [stream_vis_stop (.ident "struct" kwSpan :: .ident name nameSpan :: gens) _ rfl]
    simp only [reduceIte]
    rw [rewrite_item]
    simp only [stream_ident, TokenTree.span]
    rw [find_body_none gens hg]

/-- Witness for C6 at `#[some_attr] fn` (wrong keyword) and
`struct Foo < T >` (no body), both with a usage error. -/
theorem C6_fatal_short_circuit_witness :
    auto_default [.lit "a" 90]
        (serializeOptSkip none ++
          serializeAttrs [⟨.alone, 1, .bracket, [.ident "some_attr" 2], 3⟩] ++
          .ident "fn" 4 :: [.ident "f" 5]) =
      .ok (argErrors [.lit "a" 90] ++ containerSkipError none ++
        (CompileError.mk (TokenTree.ident "fn" 4).span
          "expected a `struct` or an `enum`").toTokens) ∧
    auto_default [.lit "b" 91]
        (serializeOptSkip none ++ serializeAttrs [] ++
          .ident "struct" 6 :: .ident "Foo" 7 ::
            [.punct '<' .alone 8, .ident "T" 9, .punct '>' .alone 10]) =
      .ok (argErrors [.lit "b" 91] ++ containerSkipError none ++
        (CompileError.mk 7 "expected struct with named fields").toTokens) :=
  ⟨C6_fatal_short_circuit.1 [.lit "a" 90] none
      [⟨.alone, 1, .bracket, [.ident "some_attr" 2], 3⟩] (.ident "fn" 4) [.ident "f" 5]
      (by decide) (by decide),
   C6_fatal_short_circuit.2 [.lit "b" 91] none [] 6 "Foo" 7
      [.punct '<' .alone 8, .ident "T" 9, .punct '>' .alone 10] rfl (by decide)⟩

/-- C8 counterexample: a unit variant carrying `#[auto_default(skip)]`.  The
rewriter emits the placement diagnostic and keeps the variant, but the
variant is *not* preserved unchanged: its skip annotation is removed from
the output. -/
theorem C8_counterexample :
    auto_default []
        [ .ident "enum" 1, .ident "E" 2,
          .group .brace
            [ .punct '#' .alone 10,
              .group .bracket
                [.ident "auto_default" 11, .group .parenthesis [.ident "skip" 12] 13] 14,
              .ident "A" 30, .punct ',' .alone 31,
              .ident "B" 32,
              .group .brace [.ident "x" 33, .punct ':' .alone 34, .ident "u8" 35] 36 ] 3 ]
      = .ok
          ([ .ident "enum" 1, .ident "E" 2,
             .group .brace
               ([ .ident "A" 30, .punct ',' .alone 31, .ident "B" 32 ] ++
                 [.group .brace
                   ([.ident "x" 33, .punct ':' .alone 34, .ident "u8" 35] ++ default 33)
                   36]) 3 ] ++
            (CompileError.mk 30
              "`#[auto_default(skip)]` is only allowed on variants with named fields").toTokens)
    ∧ ([.ident "A" 30, .punct ',' .alone 31] : List TokenTree)
      ≠ [ .punct '#' .alone 10,
          .group .bracket
            [.ident "auto_default" 11, .group .parenthesis [.ident "skip" 12] 13] 14,
          .ident "A" 30, .punct ',' .alone 31 ] := by
  refine ⟨?_, by decide⟩
  exact auto_default_enum
    ⟨none, [], none, 1, "E", 2, [], 3,
      [ ⟨some ⟨.alone, 10, 11, 13, 12, 14⟩, [], none, "A", 30, .unit, none,
          some (.alone, 31)⟩,
        ⟨none, [], none, "B", 32,
          .named [⟨none, [], none, "x", 33, .alone, 34, [.ident "u8" 35], none, none⟩] 36,
          none, none⟩ ]⟩ (by decide)

/-- C8 (amended): a skip annotation in a disallowed position — on the
declaration itself, or on a unit or positional variant — causes one
non-fatal placement diagnostic, and the rewriter still produces the
rewritten declaration; a unit variant marked with the annotation is
preserved in the output *except that the annotation itself is removed*,
alongside the diagnostic.  First conjunct: container skip on a struct — the
whole rewritten declaration followed by exactly one placement diagnostic.
Second conjunct: enums are rewritten with per-variant diagnostics appended.
Third conjunct: a skipped unit variant's output block is its own tokens
minus the annotation, and its diagnostic contribution is exactly one
placement error. -/
theorem C8_skip_placement :
    (∀ (s : StructSpec) (k : SkipSpec), s.containerSkip = some k → wfStruct s = true →
        auto_default [] (serializeStruct s)
          = .ok (serializeAttrs s.attrs ++ serializeVis s.vis ++
              [.ident "struct" s.kwSpan, .ident s.name s.nameSpan] ++ s.generics ++
              [.group .brace (s.fields.flatMap (outputField false)) s.bodySpan] ++
              (CompileError.mk k.skipSpan
                "`#[auto_default(skip)]` is not allowed on container").toTokens)) ∧
    (∀ e : EnumSpec, wfEnum e = true →
        auto_default [] (serializeEnum e) = .ok (enumOutput e)) ∧
    (∀ v : VariantSpec, v.payload = .unit → v.skip.isSome = true →
        variantOutput v
          = serializeAttrs v.attrs ++ serializeVis v.vis ++ [.ident v.name v.nameSpan] ++
              serializeInit v.disc ++ serializeComma v.comma ∧
        variantError v
          = (CompileError.mk v.nameSpan
              "`#[auto_default(skip)]` is only allowed on variants with named fields").toTokens) := by
  refine ⟨?_, auto_default_enum, ?_⟩
  · intro s k hk hw
    rw [auto_default_struct s hw]
    rw [structOutput, hk, containerSkipError]
  · intro v hp hsk
    constructor
    · rw [variantOutput, hp, outputPayload]
      simp
    · rw [variantError, hp]
      simp [payloadIsNamed, hsk]

/-- Witness for C8: a struct with a container-level skip annotation, and a
concrete skipped unit variant. -/
theorem C8_skip_placement_witness :
    auto_default []
        (serializeStruct ⟨some ⟨.alone, 50, 51, 53, 52, 54⟩, [], none, 1, "S", 2, [], 3,
          [⟨none, [], none, "x", 5, .alone, 6, [.ident "u8" 7], none, none⟩]⟩)
      = .ok (serializeAttrs [] ++ serializeVis none ++
          [.ident "struct" 1, .ident "S" 2] ++ [] ++
          [.group .brace
            ([⟨none, [], none, "x", 5, .alone, 6, [.ident "u8" 7], none, none⟩].flatMap
              (outputField false)) 3] ++
          (CompileError.mk 52
            "`#[auto_default(skip)]` is not allowed on container").toTokens) ∧
    variantOutput
        ⟨some ⟨.alone, 10, 11, 13, 12, 14⟩, [], none, "A", 30, .unit, none,
          some (.alone, 31)⟩
      = serializeAttrs [] ++ serializeVis none ++ [.ident "A" 30] ++
          serializeInit none ++ serializeComma (some (.alone, 31)) :=
  ⟨C8_skip_placement.1
      ⟨some ⟨.alone, 50, 51, 53, 52, 54⟩, [], none, 1, "S", 2, [], 3,
        [⟨none, [], none, "x", 5, .alone, 6, [.ident "u8" 7], none, none⟩]⟩
      ⟨.alone, 50, 51, 53, 52, 54⟩ rfl (by decide),
   (C8_skip_placement.2.2
      ⟨some ⟨.alone, 10, 11, 13, 12, 14⟩, [], none, "A", 30, .unit, none,
        some (.alone, 31)⟩ rfl rfl).1⟩

theorem find_body_cons_brace (body : List TokenTree) (bodySpan : Nat)
    (rest sink : List TokenTree) :
    find_body (.group .brace body bodySpan :: rest) sink
      = (some (body, bodySpan, rest), sink) := by
  rw [find_body]

/-- `auto_default` on a minimal struct header with an arbitrary raw body:
whatever `add_default_field_values` produces for the body is emitted between
the header and the accumulated errors. -/
theorem auto_default_struct_raw (ksp : Nat) (name : String) (nsp : Nat)
    (body : List TokenTree) (bodySpan : Nat) (g : TokenTree)
    (errsOut : List TokenTree)
    (h : add_default_field_values body bodySpan [] false = .ok (g, errsOut)) :
    auto_default [] [.ident "struct" ksp, .ident name nsp, .group .brace body bodySpan]
      = .ok ([.ident "struct" ksp, .ident name nsp, g] ++ errsOut) := by
  rw [auto_default.eq_def]
  simp only []
  have ha : stream_attrs
      [TokenTree.ident "struct" ksp, .ident name nsp, .group .brace body bodySpan]
      [] [] false
      = .ok (false,
          [TokenTree.ident "struct" ksp, .ident name nsp, .group .brace body bodySpan],
          [], []) := by
    rw [stream_attrs]
    rw [stream_attrs_loop_stop
      [TokenTree.ident "struct" ksp, .ident name nsp, .group .brace body bodySpan]
      [] [] none rfl]
  rw [ha]
  simp only []
  rw [stream_vis_stop
    [TokenTree.ident "struct" ksp, .ident name nsp, .group .brace body bodySpan] _ rfl]
  simp only [reduceIte]
  rw [rewrite_item]
  simp only [stream_ident, TokenTree.span, List.nil_append]
  rw [find_body_cons_brace]
  simp only []
  rw [h]
  simp

/-- C5 counterexample: a field carrying two skip annotations produces a
duplicate-annotation diagnostic that belongs to that field, yet the
diagnostic fragment is appended *after* the whole rewritten declaration, not
inserted before the field's terminating comma: the rewritten body contains
no `compile_error` fragment at all, and the single diagnostic sits after the
closing brace. -/
theorem C5_counterexample :
    auto_default []
        [ .ident "struct" 1, .ident "S" 2,
          .group .brace
            [ .punct '#' .alone 10,
              .group .bracket
                [.ident "auto_default" 11, .group .parenthesis [.ident "skip" 12] 13] 14,
              .punct '#' .alone 15,
              .group .bracket
                [.ident "auto_default" 16, .group .parenthesis [.ident "skip" 17] 18] 19,
              .ident "x" 20, .punct ':' .alone 21, .ident "u8" 22, .punct ',' .alone 23,
              .ident "y" 24, .punct ':' .alone 25, .ident "u8" 26 ] 3 ]
      = .ok
          ([ .ident "struct" 1, .ident "S" 2,
             .group .brace
               ([ .ident "x" 20, .punct ':' .alone 21, .ident "u8" 22,
                  .punct ',' .alone 23, .ident "y" 24, .punct ':' .alone 25,
                  .ident "u8" 26 ] ++ default 24) 3 ] ++
            (CompileError.mk 17 "duplicate `#[auto_default(skip)]`").toTokens)
    ∧ countIdent "compile_error"
        ([ .ident "x" 20, .punct ':' .alone 21, .ident "u8" 22,
           .punct ',' .alone 23, .ident "y" 24, .punct ':' .alone 25,
           .ident "u8" 26 ] ++ default 24) = 0
    ∧ countIdent "compile_error"
        ([ .ident "struct" 1, .ident "S" 2,
           .group .brace
             ([ .ident "x" 20, .punct ':' .alone 21, .ident "u8" 22,
                .punct ',' .alone 23, .ident "y" 24, .punct ':' .alone 25,
                .ident "u8" 26 ] ++ default 24) 3 ] ++
          (CompileError.mk 17 "duplicate `#[auto_default(skip)]`").toTokens) = 1 := by
  refine ⟨?_, by decide, by decide⟩
  have hattrs : stream_attrs
      [ TokenTree.punct '#' .alone 10,
        .group .bracket
          [.ident "auto_default" 11, .group .parenthesis [.ident "skip" 12] 13] 14,
        .punct '#' .alone 15,
        .group .bracket
          [.ident "auto_default" 16, .group .parenthesis [.ident "skip" 17] 18] 19,
        .ident "x" 20, .punct ':' .alone 21, .ident "u8" 22, .punct ',' .alone 23,
        .ident "y" 24, .punct ':' .alone 25, .ident "u8" 26 ] [] [] true
      = .ok (true,
          TokenTree.ident "x" 20 :: TokenTree.punct ':' .alone 21 ::
            ([TokenTree.ident "u8" 22] ++ serializeInit none ++
              TokenTree.punct ',' .alone 23 ::
                serializeField
                  ⟨none, [], none, "y", 24, .alone, 25, [.ident "u8" 26], none, none⟩),
          [], (CompileError.mk 17 "duplicate `#[auto_default(skip)]`").toTokens) := by
    rw [stream_attrs]
    rw [show
        ([ TokenTree.punct '#' .alone 10,
           .group .bracket
             [.ident "auto_default" 11, .group .parenthesis [.ident "skip" 12] 13] 14,
           .punct '#' .alone 15,
           .group .bracket
             [.ident "auto_default" 16, .group .parenthesis [.ident "skip" 17] 18] 19,
           .ident "x" 20, .punct ':' .alone 21, .ident "u8" 22, .punct ',' .alone 23,
           .ident "y" 24, .punct ':' .alone 25, .ident "u8" 26 ] : List TokenTree)
        = SkipSpec.toTokens ⟨.alone, 10, 11, 13, 12, 14⟩ ++
            (SkipSpec.toTokens ⟨.alone, 15, 16, 18, 17, 19⟩ ++
              [ .ident "x" 20, .punct ':' .alone 21, .ident "u8" 22, .punct ',' .alone 23,
                .ident "y" 24, .punct ':' .alone 25, .ident "u8" 26 ]) from rfl]
    rw [stream_attrs_loop_skip_first]
    rw [stream_attrs_loop_skip_dup]
    rw [stream_attrs_loop_stop
      [ TokenTree.ident "x" 20, .punct ':' .alone 21, .ident "u8" 22, .punct ',' .alone 23,
        .ident "y" 24, .punct ':' .alone 25, .ident "u8" 26 ] [] _ (some 12) rfl]
    simp [serializeField, serializeOptSkip, serializeAttrs, serializeVis, serializeInit,
      serializeComma]
  have hloop : parse_field_loop
      [ TokenTree.punct '#' .alone 10,
        .group .bracket
          [.ident "auto_default" 11, .group .parenthesis [.ident "skip" 12] 13] 14,
        .punct '#' .alone 15,
        .group .bracket
          [.ident "auto_default" 16, .group .parenthesis [.ident "skip" 17] 18] 19,
        .ident "x" 20, .punct ':' .alone 21, .ident "u8" 22, .punct ',' .alone 23,
        .ident "y" 24, .punct ':' .alone 25, .ident "u8" 26 ] [] [] false
      = .ok ([ TokenTree.ident "x" 20, .punct ':' .alone 21, .ident "u8" 22,
               .punct ',' .alone 23, .ident "y" 24, .punct ':' .alone 25,
               .ident "u8" 26 ] ++ default 24,
             (CompileError.mk 17 "duplicate `#[auto_default(skip)]`").toTokens) := by
    rw [parse_field_loop]
    rw [hattrs]
    simp only []
    rw [stream_vis_stop
      (TokenTree.ident "x" 20 :: TokenTree.punct ':' .alone 21 ::
        ([TokenTree.ident "u8" 22] ++ serializeInit none ++
          TokenTree.punct ',' .alone 23 ::
            serializeField
              ⟨none, [], none, "y", 24, .alone, 25, [.ident "u8" 26], none, none⟩)) _ rfl]
    simp only [stream_ident, TokenTree.span]
    rw [stream_field_tail_serialized_comma 20 (true || false) [.ident "u8" 22]
      (by decide) none rfl .alone 23 _]
    simp only [Bool.false_eq_true, reduceIte]
    rw [parse_field_loop_last
      ⟨none, [], none, "y", 24, .alone, 25, [.ident "u8" 26], none, none⟩ (by decide) rfl]
    simp [outputField, tailInitOut, serializeAttrs, serializeVis, serializeComma]
  have hadd : add_default_field_values
      [ TokenTree.punct '#' .alone 10,
        .group .bracket
          [.ident "auto_default" 11, .group .parenthesis [.ident "skip" 12] 13] 14,
        .punct '#' .alone 15,
        .group .bracket
          [.ident "auto_default" 16, .group .parenthesis [.ident "skip" 17] 18] 19,
        .ident "x" 20, .punct ':' .alone 21, .ident "u8" 22, .punct ',' .alone 23,
        .ident "y" 24, .punct ':' .alone 25, .ident "u8" 26 ] 3 [] false
      = .ok (.group .brace
          ([ TokenTree.ident "x" 20, .punct ':' .alone 21, .ident "u8" 22,
             .punct ',' .alone 23, .ident "y" 24, .punct ':' .alone 25,
             .ident "u8" 26 ] ++ default 24) 3,
          (CompileError.mk 17 "duplicate `#[auto_default(skip)]`").toTokens) := by
    rw [add_default_field_values, hloop]
  have := auto_default_struct_raw 1 "S" 2 _ 3 _ _ hadd
  simpa using this

/-- C5 (amended): token order is preserved exactly for all non-injected
tokens, and initializer injections are the only fragments inserted at the
field they belong to — immediately before the field's terminating comma, or
at the end of the list; diagnostic fragments are *not* inserted there but
appended after the whole rewritten declaration, in detection order (visible
in `structOutput`/`enumOutput`, which place every diagnostic after the
declaration's closing brace). -/
theorem C5_token_order :
    (∀ s : StructSpec, wfStruct s = true →
        auto_default [] (serializeStruct s) = .ok (structOutput s)) ∧
    (∀ e : EnumSpec, wfEnum e = true →
        auto_default [] (serializeEnum e) = .ok (enumOutput e)) ∧
    (∀ (f : FieldSpec) (vskip : Bool) (cspc : Spacing) (csp : Nat),
        f.init = none → (f.skip.isSome || vskip) = false → f.comma = some (cspc, csp) →
        outputField vskip f
          = serializeAttrs f.attrs ++ serializeVis f.vis ++
              [.ident f.name f.nameSpan, .punct ':' f.colonSpc f.colonSpan] ++ f.ty ++
              default f.nameSpan ++ [.punct ',' cspc csp]) := by
  refine ⟨auto_default_struct, auto_default_enum, ?_⟩
  intro f vskip cspc csp hi hsk hc
  simp [outputField, hi, hsk, hc, serializeComma]

/-- Witness for C5 at a one-field struct with a container skip (diagnostic at
the very end of the output) and an eligible field. -/
theorem C5_token_order_witness :
    auto_default []
        (serializeStruct ⟨some ⟨.alone, 50, 51, 53, 52, 54⟩, [], none, 1, "S", 2, [], 3,
          [⟨none, [], none, "x", 5, .alone, 6, [.ident "u8" 7], none, none⟩]⟩)
      = .ok (structOutput ⟨some ⟨.alone, 50, 51, 53, 52, 54⟩, [], none, 1, "S", 2, [], 3,
          [⟨none, [], none, "x", 5, .alone, 6, [.ident "u8" 7], none, none⟩]⟩) ∧
    outputField false
        ⟨none, [], none, "z", 61, .alone, 62, [.ident "u8" 63], none, some (.alone, 64)⟩
      = serializeAttrs [] ++ serializeVis none ++
          [.ident "z" 61, .punct ':' .alone 62] ++ [.ident "u8" 63] ++
          default 61 ++ [.punct ',' .alone 64] :=
  ⟨C5_token_order.1 _ (by decide),
   C5_token_order.2.2 _ false .alone 64 rfl rfl rfl⟩

end AutoDefault
